import Mathlib

/-!
Verification of the ilo interpreter (Rust sources under `ilo/lexer`,
`ilo/parser`, `ilo/interpreter`, `ilo/error_manager`) by a shallow
embedding in Lean.  Each definition carries a comment naming the Rust
item it translates.
-/

set_option linter.unusedVariables false

/-- Models the Rust `f64` type as used by the interpreter.  Finite doubles
are embedded as exact rationals (a superset of the binary64 finite
values); the special values NaN and the two infinities are separate
constructors.  The sign of zero is not tracked (Rust renders `-0` as `0`
and IEEE equality identifies them).  Rounding of arithmetic results to
binary64 precision is not modelled; no claim below depends on the
numeric value of an arithmetic result. -/
inductive F64 where
  | nan
  | inf
  | neginf
  | finite (q : ℚ)
deriving DecidableEq, Repr

namespace F64

/-- IEEE-754 equality, the semantics of Rust `==` on `f64`: NaN compares
unequal to everything, including itself. -/
def beq : F64 → F64 → Bool
  | nan, _ => false
  | _, nan => false
  | inf, inf => true
  | neginf, neginf => true
  | finite a, finite b => a == b
  | _, _ => false

/-- IEEE-754 strict less-than (`<` on Rust `f64`): false whenever an
operand is NaN. -/
def flt : F64 → F64 → Bool
  | nan, _ => false
  | _, nan => false
  | neginf, neginf => false
  | neginf, _ => true
  | _, neginf => false
  | inf, _ => false
  | finite _, inf => true
  | finite a, finite b => decide (a < b)

/-- IEEE-754 `<=`: true iff `<` or IEEE-equal (so false on NaN). -/
def fle (x y : F64) : Bool := beq x y || flt x y

/-- IEEE-754 `>`. -/
def fgt (x y : F64) : Bool := flt y x

/-- IEEE-754 `>=`. -/
def fge (x y : F64) : Bool := fle y x

/-- Rust unary `-` on `f64`. -/
def fneg : F64 → F64
  | nan => nan
  | inf => neginf
  | neginf => inf
  | finite q => finite (-q)

/-- Rust `f64` addition (exact on the rational embedding; binary64
rounding and overflow-to-infinity not modelled). -/
def fadd : F64 → F64 → F64
  | nan, _ => nan
  | _, nan => nan
  | inf, neginf => nan
  | neginf, inf => nan
  | inf, _ => inf
  | _, inf => inf
  | neginf, _ => neginf
  | _, neginf => neginf
  | finite a, finite b => finite (a + b)

/-- Rust `f64` subtraction. -/
def fsub (x y : F64) : F64 := fadd x (fneg y)

/-- Rust `f64` multiplication (exact on the rational embedding). -/
def fmul : F64 → F64 → F64
  | nan, _ => nan
  | _, nan => nan
  | inf, inf => inf
  | inf, neginf => neginf
  | neginf, inf => neginf
  | neginf, neginf => inf
  | inf, finite b => if b = 0 then nan else if 0 < b then inf else neginf
  | finite a, inf => if a = 0 then nan else if 0 < a then inf else neginf
  | neginf, finite b => if b = 0 then nan else if 0 < b then neginf else inf
  | finite a, neginf => if a = 0 then nan else if 0 < a then neginf else inf
  | finite a, finite b => finite (a * b)

/-- Rust `f64` division (exact on the rational embedding; the sign of a
zero divisor is not tracked, so `x / 0` with `x ≠ 0` is mapped to the
infinity matching the sign of `x`). -/
def fdiv : F64 → F64 → F64
  | nan, _ => nan
  | _, nan => nan
  | inf, inf => nan
  | inf, neginf => nan
  | neginf, inf => nan
  | neginf, neginf => nan
  | inf, finite b => if 0 ≤ b then inf else neginf
  | neginf, finite b => if 0 ≤ b then neginf else inf
  | finite _, inf => finite 0
  | finite _, neginf => finite 0
  | finite a, finite b =>
    if b = 0 then (if a = 0 then nan else if 0 < a then inf else neginf)
    else finite (a / b)

/-- Rust `f64::rem_euclid` on the rational embedding (`a - |b| * ⌊a / |b|⌋`
for finite operands, NaN otherwise).  No claim depends on its value. -/
def fremEuclid : F64 → F64 → F64
  | finite a, finite b =>
    if b = 0 then nan else finite (a - |b| * (⌊a / |b|⌋ : ℤ))
  | _, _ => nan

/-- Rust `f64::powf`.  Exponentiation results are not modelled (mapped to
NaN); no claim concerns the `^` operator. -/
def fpow : F64 → F64 → F64 := fun _ _ => nan

/-- Round half away from zero on rationals, the rounding used by Rust
`f64::round`. -/
def rqround (q : ℚ) : ℤ := if q < 0 then -⌊-q + 1/2⌋ else ⌊q + 1/2⌋

/-- Rust `f64::round` (round half away from zero). -/
def fround : F64 → F64
  | nan => nan
  | inf => inf
  | neginf => neginf
  | finite q => finite ((rqround q : ℤ) : ℚ)

/-- Truncation toward zero on rationals. -/
def qtrunc (q : ℚ) : ℤ := if q < 0 then -⌊-q⌋ else ⌊q⌋

/-- Rust `expr as i64` on an `f64` operand: truncation toward zero,
saturating at the `i64` bounds, with NaN mapped to 0. -/
def ftoI64 : F64 → ℤ
  | nan => 0
  | inf => 2 ^ 63 - 1
  | neginf => -(2 ^ 63)
  | finite q => max (-(2 ^ 63)) (min (2 ^ 63 - 1) (qtrunc q))

end F64

/-- Codomain of `TokenType.encode` (declared before `TokenType` so that
the plain names `Nat`, `F64` and `String` denote the library types). -/
abbrev TokenCode := Nat ⊕ F64 ⊕ String

/-- The token kinds of `ilo/lexer/src/lib.rs` (`enum TokenType`).  Number
and string literal tokens carry their parsed value. -/
inductive TokenType where
  | LeftBrace
  | RightBrace
  | LeftBracket
  | RightBracket
  | Comma
  | Colon
  | Interrogation
  | LeftParen
  | RightParen
  | Arrow
  | Bang
  | BangEqual
  | Caret
  | CaretEqual
  | Dot
  | DotDotDot
  | Equal
  | EqualEqual
  | Greater
  | GreaterEqual
  | Less
  | LessEqual
  | Minus
  | MinusEqual
  | MinusMinus
  | Percent
  | PercentEqual
  | Plus
  | PlusEqual
  | PlusPlus
  | Slash
  | SlashEqual
  | Star
  | StarEqual
  | Identifier
  | NumberLiteral (value : F64)
  | StringLiteral (value : String)
  | And
  | Ask
  | Boolean
  | Break
  | Cmd
  | Continue
  | Default
  | Delete
  | Else
  | Empty
  | False
  | For
  | Function
  | If
  | In
  | Keys
  | Match
  | Number
  | Or
  | Out
  | Return
  | Size
  | String
  | True
  | While
  | EOL
  | EOF

/-- Injection of `TokenType` into a sum with decidable equality (the
derived quadratic case split is avoided; payload-free constructors get a
numeric tag, the two payload constructors carry their payload). -/
def TokenType.encode : TokenType → TokenCode
  | TokenType.NumberLiteral v => Sum.inr (Sum.inl v)
  | TokenType.StringLiteral s => Sum.inr (Sum.inr s)
  | TokenType.LeftBrace => Sum.inl 0
  | TokenType.RightBrace => Sum.inl 1
  | TokenType.LeftBracket => Sum.inl 2
  | TokenType.RightBracket => Sum.inl 3
  | TokenType.Comma => Sum.inl 4
  | TokenType.Colon => Sum.inl 5
  | TokenType.Interrogation => Sum.inl 6
  | TokenType.LeftParen => Sum.inl 7
  | TokenType.RightParen => Sum.inl 8
  | TokenType.Arrow => Sum.inl 9
  | TokenType.Bang => Sum.inl 10
  | TokenType.BangEqual => Sum.inl 11
  | TokenType.Caret => Sum.inl 12
  | TokenType.CaretEqual => Sum.inl 13
  | TokenType.Dot => Sum.inl 14
  | TokenType.DotDotDot => Sum.inl 15
  | TokenType.Equal => Sum.inl 16
  | TokenType.EqualEqual => Sum.inl 17
  | TokenType.Greater => Sum.inl 18
  | TokenType.GreaterEqual => Sum.inl 19
  | TokenType.Less => Sum.inl 20
  | TokenType.LessEqual => Sum.inl 21
  | TokenType.Minus => Sum.inl 22
  | TokenType.MinusEqual => Sum.inl 23
  | TokenType.MinusMinus => Sum.inl 24
  | TokenType.Percent => Sum.inl 25
  | TokenType.PercentEqual => Sum.inl 26
  | TokenType.Plus => Sum.inl 27
  | TokenType.PlusEqual => Sum.inl 28
  | TokenType.PlusPlus => Sum.inl 29
  | TokenType.Slash => Sum.inl 30
  | TokenType.SlashEqual => Sum.inl 31
  | TokenType.Star => Sum.inl 32
  | TokenType.StarEqual => Sum.inl 33
  | TokenType.Identifier => Sum.inl 34
  | TokenType.And => Sum.inl 35
  | TokenType.Ask => Sum.inl 36
  | TokenType.Boolean => Sum.inl 37
  | TokenType.Break => Sum.inl 38
  | TokenType.Cmd => Sum.inl 39
  | TokenType.Continue => Sum.inl 40
  | TokenType.Default => Sum.inl 41
  | TokenType.Delete => Sum.inl 42
  | TokenType.Else => Sum.inl 43
  | TokenType.Empty => Sum.inl 44
  | TokenType.False => Sum.inl 45
  | TokenType.For => Sum.inl 46
  | TokenType.Function => Sum.inl 47
  | TokenType.If => Sum.inl 48
  | TokenType.In => Sum.inl 49
  | TokenType.Keys => Sum.inl 50
  | TokenType.Match => Sum.inl 51
  | TokenType.Number => Sum.inl 52
  | TokenType.Or => Sum.inl 53
  | TokenType.Out => Sum.inl 54
  | TokenType.Return => Sum.inl 55
  | TokenType.Size => Sum.inl 56
  | TokenType.String => Sum.inl 57
  | TokenType.True => Sum.inl 58
  | TokenType.While => Sum.inl 59
  | TokenType.EOL => Sum.inl 60
  | TokenType.EOF => Sum.inl 61

/-- Left inverse of `TokenType.encode`. -/
def TokenType.decode : TokenCode → TokenType
  | Sum.inr (Sum.inl v) => TokenType.NumberLiteral v
  | Sum.inr (Sum.inr s) => TokenType.StringLiteral s
  | Sum.inl 0 => TokenType.LeftBrace
  | Sum.inl 1 => TokenType.RightBrace
  | Sum.inl 2 => TokenType.LeftBracket
  | Sum.inl 3 => TokenType.RightBracket
  | Sum.inl 4 => TokenType.Comma
  | Sum.inl 5 => TokenType.Colon
  | Sum.inl 6 => TokenType.Interrogation
  | Sum.inl 7 => TokenType.LeftParen
  | Sum.inl 8 => TokenType.RightParen
  | Sum.inl 9 => TokenType.Arrow
  | Sum.inl 10 => TokenType.Bang
  | Sum.inl 11 => TokenType.BangEqual
  | Sum.inl 12 => TokenType.Caret
  | Sum.inl 13 => TokenType.CaretEqual
  | Sum.inl 14 => TokenType.Dot
  | Sum.inl 15 => TokenType.DotDotDot
  | Sum.inl 16 => TokenType.Equal
  | Sum.inl 17 => TokenType.EqualEqual
  | Sum.inl 18 => TokenType.Greater
  | Sum.inl 19 => TokenType.GreaterEqual
  | Sum.inl 20 => TokenType.Less
  | Sum.inl 21 => TokenType.LessEqual
  | Sum.inl 22 => TokenType.Minus
  | Sum.inl 23 => TokenType.MinusEqual
  | Sum.inl 24 => TokenType.MinusMinus
  | Sum.inl 25 => TokenType.Percent
  | Sum.inl 26 => TokenType.PercentEqual
  | Sum.inl 27 => TokenType.Plus
  | Sum.inl 28 => TokenType.PlusEqual
  | Sum.inl 29 => TokenType.PlusPlus
  | Sum.inl 30 => TokenType.Slash
  | Sum.inl 31 => TokenType.SlashEqual
  | Sum.inl 32 => TokenType.Star
  | Sum.inl 33 => TokenType.StarEqual
  | Sum.inl 34 => TokenType.Identifier
  | Sum.inl 35 => TokenType.And
  | Sum.inl 36 => TokenType.Ask
  | Sum.inl 37 => TokenType.Boolean
  | Sum.inl 38 => TokenType.Break
  | Sum.inl 39 => TokenType.Cmd
  | Sum.inl 40 => TokenType.Continue
  | Sum.inl 41 => TokenType.Default
  | Sum.inl 42 => TokenType.Delete
  | Sum.inl 43 => TokenType.Else
  | Sum.inl 44 => TokenType.Empty
  | Sum.inl 45 => TokenType.False
  | Sum.inl 46 => TokenType.For
  | Sum.inl 47 => TokenType.Function
  | Sum.inl 48 => TokenType.If
  | Sum.inl 49 => TokenType.In
  | Sum.inl 50 => TokenType.Keys
  | Sum.inl 51 => TokenType.Match
  | Sum.inl 52 => TokenType.Number
  | Sum.inl 53 => TokenType.Or
  | Sum.inl 54 => TokenType.Out
  | Sum.inl 55 => TokenType.Return
  | Sum.inl 56 => TokenType.Size
  | Sum.inl 57 => TokenType.String
  | Sum.inl 58 => TokenType.True
  | Sum.inl 59 => TokenType.While
  | Sum.inl 60 => TokenType.EOL
  | Sum.inl _ => TokenType.EOF

theorem TokenType.decode_encode (t : TokenType) :
    TokenType.decode (TokenType.encode t) = t := by
  cases t <;> rfl

instance instDecEqTokenType : DecidableEq TokenType := fun a b =>
  decidable_of_iff (TokenType.encode a = TokenType.encode b)
    ⟨fun h => by rw [← TokenType.decode_encode a, h, TokenType.decode_encode b],
     fun h => by rw [h]⟩

/-- The Rust `struct Token`.  `line` and `column` are 1-based positions
(`i64` in Rust; the lexer only ever increases them, so `Nat` is an exact
model). -/
structure Token where
  tokenType : TokenType
  lexeme : String
  line : Nat
  column : Nat
deriving DecidableEq

/-- The Rust `enum Expr` of `ilo/parser/src/lib.rs`.  The Rust variant
`Variable` is rendered `var` (`variable` is reserved in Lean). -/
inductive Expr where
  | primary (value : Token)
  | unary (operator : Token) (expr : Expr)
  | binary (leftExpr : Expr) (operator : Token) (rightExpr : Expr)
  | grouping (expr : Expr)
  | var (name : Token)
  | call (callee : Expr) (closingParen : Token) (arguments : List Expr)

/-- The Rust `enum Statement` of `ilo/parser/src/lib.rs`.  The Rust
variant names `If`, `While` and `Return` are rendered `ifStmt`,
`whileStmt` and `ret`.  The `ret` variant does not appear in the
`Statement` declaration of `ilo/parser/src/lib.rs`, but the interpreter
(`ilo/interpreter/src/lib.rs`) pattern-matches `Statement::Return { expr }`,
which fixes its shape; the statement parser of this snapshot never
produces it. -/
inductive Statement where
  | expr (expr : Expr)
  | assignment (ident : Token) (value : Expr)
  | block (statements : List Statement)
  | ifStmt (condition : Expr) (thenBranch : Statement) (otherwise : Option Statement)
  | whileStmt (condition : Expr) (body : Statement)
  | functionDeclaration (ident : Token) (params : List Token) (body : List Statement)
  | ret (expr : Expr)

/-- Tags naming the five native functions registered by
`Interpreter::new`.  In Rust the `body` field of `Value::NativeFunction`
is a host function pointer; here it is identified by this tag and
interpreted by `callNative`. -/
inductive NativeTag where
  | out
  | ask
  | size
  | time
  | cmd
deriving DecidableEq, Repr

/-- The Rust `enum Value` of `ilo/interpreter/src/lib.rs`. -/
inductive Value where
  | empty
  | emptyBoolean
  | boolean (b : Bool)
  | emptyNumber
  | number (n : F64)
  | string (s : String)
  | function (name : String) (args : List String) (body : List Statement)
  | nativeFunction (name : String) (args : List String) (body : NativeTag)

namespace Value

/-- `Value::get_type`.  The Rust function panics (`unreachable!`) on the
untyped `Empty`; that branch is modelled by `none`. -/
def getType : Value → Option String
  | emptyBoolean => some "boolean"
  | boolean _ => some "boolean"
  | emptyNumber => some "number"
  | number _ => some "number"
  | string _ => some "string"
  | function _ args _ => some ("function(" ++ toString args.length ++ ")")
  | nativeFunction _ args _ => some ("function(" ++ toString args.length ++ ")")
  | empty => none

/-- `Value::as_empty`.  The Rust function panics (`unreachable!`) on any
value other than a `Boolean` or a `Number`; those branches are modelled
by `none`. -/
def asEmpty : Value → Option Value
  | boolean _ => some emptyBoolean
  | number _ => some emptyNumber
  | _ => none

end Value

/-- One frame of the environment (`struct Scope`).  The Rust `HashMap` is
modelled as an association list in which `insertMap` replaces an existing
key in place, matching `HashMap::insert`. -/
structure Scope where
  map : List (String × Value)
  function : Bool

/-- `Scope::new`. -/
def Scope.mk' (function : Bool) : Scope := ⟨[], function⟩

/-- `HashMap::get` on the modelled map. -/
def lookupMap : List (String × Value) → String → Option Value
  | [], _ => none
  | (k, v) :: rest, name => if k = name then some v else lookupMap rest name

/-- `HashMap::insert` on the modelled map (replaces an existing binding,
otherwise adds one). -/
def insertMap : List (String × Value) → String → Value → List (String × Value)
  | [], name, value => [(name, value)]
  | (k, w) :: rest, name, value =>
    if k = name then (name, value) :: rest else (k, w) :: insertMap rest name value

/-- The Rust `struct Environment`: a stack of scopes.  The Rust `Vec`
pushes at the back and all traversals run from the back (innermost)
frame; the list here keeps the innermost frame at the head, so `push`
is `cons`, `pop` is `tail`, and lookup is head-first traversal. -/
structure Environment where
  scopes : List Scope

/-- `Environment::new`: a single non-function global scope. -/
def Environment.new : Environment := ⟨[Scope.mk' false]⟩

/-- `Environment::enter_scope`. -/
def Environment.enterScope (env : Environment) (functionScope : Bool) : Environment :=
  ⟨Scope.mk' functionScope :: env.scopes⟩

/-- `Environment::leave_scope` (`Vec::pop`, a no-op on an empty stack). -/
def Environment.leaveScope (env : Environment) : Environment :=
  ⟨env.scopes.tail⟩

/-- The traversal inside `Environment::get`: innermost frame first. -/
def envGet : List Scope → String → Option Value
  | [], _ => none
  | s :: rest, name =>
    match lookupMap s.map name with
    | some value => some value
    | none => envGet rest name

/-- `Environment::get`. -/
def Environment.get (env : Environment) (name : String) : Option Value :=
  envGet env.scopes name

/-- The Rust `enum EnvError`. -/
inductive EnvError where
  | invalidType (current : Value)
  | emptyDeclarationNoType

/-- Intermediate result of the existing-binding loop inside
`Environment::define_or_assign`. -/
inductive AssignResult where
  | panic
  | err (e : EnvError)
  | updated (scopes : List Scope)
  | notFound

/-- The loop of `Environment::define_or_assign` over existing bindings
(innermost frame first).  On the first frame containing `name`: an
untyped `Empty` right-hand side is collapsed with `Value::as_empty`
(whose `unreachable!` is modelled by `panic`), then types are compared
with `Value::get_type` (same type: the binding is replaced in place;
different type: `InvalidType`). -/
def assignExisting : List Scope → String → Value → AssignResult
  | [], _, _ => AssignResult.notFound
  | s :: rest, name, value =>
    match lookupMap s.map name with
    | some currentValue =>
      match (match value with | Value.empty => Value.asEmpty currentValue | _ => some value) with
      | none => AssignResult.panic
      | some value' =>
        match Value.getType currentValue, Value.getType value' with
        | some tc, some tv =>
          if tc = tv then AssignResult.updated ({ s with map := insertMap s.map name value' } :: rest)
          else AssignResult.err (EnvError.invalidType currentValue)
        | _, _ => AssignResult.panic
    | none =>
      match assignExisting rest name value with
      | AssignResult.updated rest' => AssignResult.updated (s :: rest')
      | r => r

/-- `Environment::define_or_assign`.  `none` models a Rust panic
(an `unreachable!` reached).  When `functionArg` is true the
existing-binding loop is skipped, as in Rust.  A still-untyped `Empty`
right-hand side with no prior binding is the `EmptyDeclarationNoType`
error; otherwise the name is created in the innermost frame. -/
def defineOrAssign (env : Environment) (name : String) (value : Value)
    (functionArg : Bool) : Option (Except EnvError Environment) :=
  let defineNew : Option (Except EnvError Environment) :=
    match value with
    | Value.empty => some (Except.error EnvError.emptyDeclarationNoType)
    | _ =>
      match env.scopes with
      | [] => none
      | s :: rest => some (Except.ok ⟨{ s with map := insertMap s.map name value } :: rest⟩)
  if functionArg then defineNew
  else
    match assignExisting env.scopes name value with
    | AssignResult.panic => none
    | AssignResult.err e => some (Except.error e)
    | AssignResult.updated scopes => some (Except.ok ⟨scopes⟩)
    | AssignResult.notFound => defineNew

/-- `Environment::define_native_function` (the `Result` is discarded in
Rust; with `function_arg = true` and a non-`Empty` value it always
succeeds). -/
def defineNativeFunction (env : Environment) (name : String) (args : List String)
    (tag : NativeTag) : Environment :=
  match defineOrAssign env name (Value.nativeFunction name args tag) true with
  | some (Except.ok env') => env'
  | _ => env

/-- The host behaviour of the five native functions, modelled purely.
`none` models a host panic (indexing `args[0]` / `unwrap` on an empty
argument list, or `split.first().unwrap()` on an all-whitespace command).
Console output is dropped; console input (`ask`), the system clock
(`time`) and subprocess output (`cmd`) are host-environment effects and
are modelled by fixed neutral results (`""` resp. `0`); no claim below
depends on those three results. -/
def callNative : NativeTag → List Value → Option Value
  | NativeTag.out, arg :: _ => some Value.empty
  | NativeTag.out, [] => none
  | NativeTag.ask, arg :: _ =>
    match arg with
    | Value.string _ => some (Value.string "")
    | _ => some (Value.string "")
  | NativeTag.ask, [] => none
  | NativeTag.size, arg :: _ =>
    match arg with
    | Value.string s => some (Value.number (F64.finite s.length))
    | _ => some (Value.number (F64.finite 0))
  | NativeTag.size, [] => none
  | NativeTag.time, _ => some (Value.number (F64.finite 0))
  | NativeTag.cmd, arg :: _ =>
    match arg with
    | Value.string command =>
      if command.isEmpty then some (Value.string "")
      else if (command.splitOn " ").all (·.isEmpty) then none
      else some (Value.string "")
    | _ => some (Value.string "")
  | NativeTag.cmd, [] => none

/-- `Interpreter::new`: the initial environment with the five native
functions registered in the global scope (each unary native declares one
nameless parameter, `vec![String::new()]`). -/
def interpreterNew : Environment :=
  let env := Environment.new
  let env := defineNativeFunction env "out" [""] NativeTag.out
  let env := defineNativeFunction env "ask" [""] NativeTag.ask
  let env := defineNativeFunction env "size" [""] NativeTag.size
  let env := defineNativeFunction env "time" [] NativeTag.time
  let env := defineNativeFunction env "cmd" [""] NativeTag.cmd
  env

/-- The Rust `enum ErrorType` of `ilo/error_manager/src/lib.rs` (the kind
tag of a reported diagnostic; the message text and source position are
not modelled). -/
inductive ErrorType where
  | lexicalError
  | parsingError
  | runtimeError
  | typeError
deriving DecidableEq, Repr

/-- The result of executing a statement or evaluating an expression.
`ok`/`ret`/`error` model Rust's `Result<Value, ErrorOrReturn>`
(`Ok`, `Err(Return)`, `Err(Error)`); `error` carries the kind of the
diagnostic reported through `error_manager::report_error` just before
the `Err`.  `panic` models a host-level Rust panic (`unreachable!` or a
failed `unwrap`/index), which aborts the process. -/
inductive Outcome where
  | ok (v : Value)
  | ret (v : Value)
  | error (kind : ErrorType)
  | panic

/-- Result of the argument-evaluation loop in
`Interpreter::evaluate_call`: all values, or an early `?`-style exit. -/
inductive ArgsOutcome where
  | vals (vs : List Value)
  | early (o : Outcome)

/-- Result of the statement loop inside `Interpreter::execute_block`:
an early `return …;`/`?` exit (which in Rust skips the trailing
`leave_scope`), or normal completion with the optional value of a
directly enclosed `Return` statement. -/
inductive BlockExit where
  | early (o : Outcome)
  | done (result : Option Value)

/-- `Interpreter::evaluate_primary` (`unreachable!` modelled by
`panic`). -/
def evaluatePrimary (value : Token) : Outcome :=
  match value.tokenType with
  | TokenType.True => Outcome.ok (Value.boolean true)
  | TokenType.False => Outcome.ok (Value.boolean false)
  | TokenType.NumberLiteral number => Outcome.ok (Value.number number)
  | TokenType.StringLiteral string => Outcome.ok (Value.string string)
  | TokenType.Boolean => Outcome.ok Value.emptyBoolean
  | TokenType.Number => Outcome.ok Value.emptyNumber
  | TokenType.Empty => Outcome.ok Value.empty
  | _ => Outcome.panic

/-- `Interpreter::evaluate_variable` (an unbound name is the reported
`Undefined symbol` Runtime error). -/
def evaluateVariable (env : Environment) (name : Token) : Environment × Outcome :=
  match env.get name.lexeme with
  | some value => (env, Outcome.ok value)
  | none => (env, Outcome.error ErrorType.runtimeError)

/-- `Interpreter::evaluate_equality`.  Pure in Rust (`&self`); the inner
`==` on payloads is IEEE equality for numbers (`F64.beq`) and structural
equality otherwise, exactly as derived `PartialEq` behaves on the
compared variants. -/
def evaluateEquality (leftValue : Value) (operator : Token) (rightValue : Value) : Outcome :=
  let equality : Bool :=
    match leftValue with
    | Value.boolean lb =>
      match rightValue with
      | Value.boolean rb => lb == rb
      | _ => false
    | Value.number ln =>
      match rightValue with
      | Value.number rn => F64.beq ln rn
      | _ => false
    | Value.string ls =>
      match rightValue with
      | Value.string rs => ls == rs
      | _ => false
    | Value.emptyBoolean =>
      match rightValue with
      | Value.emptyBoolean => true
      | Value.empty => true
      | _ => false
    | Value.emptyNumber =>
      match rightValue with
      | Value.emptyNumber => true
      | Value.empty => true
      | _ => false
    | Value.empty =>
      match rightValue with
      | Value.emptyBoolean => true
      | Value.emptyNumber => true
      | Value.empty => true
      | _ => false
    | Value.function lf _ _ =>
      match rightValue with
      | Value.function rf _ _ => lf == rf
      | Value.nativeFunction rf _ _ => lf == rf
      | _ => false
    | Value.nativeFunction lf _ _ =>
      match rightValue with
      | Value.function rf _ _ => lf == rf
      | Value.nativeFunction rf _ _ => lf == rf
      | _ => false
  Outcome.ok (Value.boolean
    (if operator.tokenType = TokenType.EqualEqual then equality else !equality))

/-- `Interpreter::evaluate_comparison` (numbers only; the `unreachable!`
on a non-comparison operator is modelled by `panic`). -/
def evaluateComparison (leftValue : Value) (operator : Token) (rightValue : Value) : Outcome :=
  match leftValue with
  | Value.number ln =>
    match rightValue with
    | Value.number rn =>
      match operator.tokenType with
      | TokenType.Greater => Outcome.ok (Value.boolean (F64.fgt ln rn))
      | TokenType.GreaterEqual => Outcome.ok (Value.boolean (F64.fge ln rn))
      | TokenType.Less => Outcome.ok (Value.boolean (F64.flt ln rn))
      | TokenType.LessEqual => Outcome.ok (Value.boolean (F64.fle ln rn))
      | _ => Outcome.panic
    | _ => Outcome.error ErrorType.typeError
  | _ => Outcome.error ErrorType.typeError

/-- The string-building loop of the string-times-number branch of
`Interpreter::evaluate_math_operation` (`push_str` `n` times). -/
def strRepeat (s : String) : Nat → String
  | 0 => ""
  | n + 1 => strRepeat s n ++ s

/-- `Interpreter::evaluate_math_operation`.  Number×Number uses the
modelled `f64` arithmetic; String+String concatenates; String*Number
first rejects a non-integral factor (IEEE `round() != n`, a Runtime
error), then casts with `as i64` (saturating) and rejects a negative
result (Runtime error); other shapes are the reported Type or Runtime
errors of the Rust source. -/
def evaluateMathOperation (leftValue : Value) (operator : Token) (rightValue : Value) : Outcome :=
  match leftValue with
  | Value.number ln =>
    match rightValue with
    | Value.number rn =>
      match operator.tokenType with
      | TokenType.Plus => Outcome.ok (Value.number (F64.fadd ln rn))
      | TokenType.Minus => Outcome.ok (Value.number (F64.fsub ln rn))
      | TokenType.Star => Outcome.ok (Value.number (F64.fmul ln rn))
      | TokenType.Slash => Outcome.ok (Value.number (F64.fdiv ln rn))
      | TokenType.Percent => Outcome.ok (Value.number (F64.fremEuclid ln rn))
      | TokenType.Caret => Outcome.ok (Value.number (F64.fpow ln rn))
      | _ => Outcome.panic
    | _ => Outcome.error ErrorType.typeError
  | Value.string ls =>
    match rightValue with
    | Value.string rs =>
      if operator.tokenType = TokenType.Plus then Outcome.ok (Value.string (ls ++ rs))
      else Outcome.error ErrorType.runtimeError
    | Value.number rn =>
      if operator.tokenType = TokenType.Star then
        if F64.beq (F64.fround rn) rn = false then Outcome.error ErrorType.runtimeError
        else
          let r : ℤ := F64.ftoI64 rn
          if r < 0 then Outcome.error ErrorType.runtimeError
          else Outcome.ok (Value.string (strRepeat ls r.toNat))
      else Outcome.error ErrorType.runtimeError
    | _ => Outcome.error ErrorType.typeError
  | _ => Outcome.error ErrorType.typeError

/-- The parameter-binding loop of `Value::call`: each parameter is bound
with `define_or_assign(name, value, true)` and the result is
`unwrap`ped.  `none` models the panic of a failed `unwrap` (an untyped
`Empty` argument value) or of out-of-range indexing into the argument
values. -/
def bindArgs : Environment → List String → List Value → Option Environment
  | env, [], _ => some env
  | env, arg :: args, v :: vs =>
    match defineOrAssign env arg v true with
    | some (Except.ok env') => bindArgs env' args vs
    | _ => none
  | _, _ :: _, [] => none

/-- Abbreviation for the fuel-indexed interpreter result: `none` is fuel
exhaustion (the Rust program would still be running), otherwise the
mutated environment together with the outcome. -/
abbrev Res := Option (Environment × Outcome)

mutual

/-- `Interpreter::execute`: dispatch on the statement.  All functions of
this mutual block take a fuel argument (`none` on exhaustion) and thread
the environment explicitly; every Rust `?` is an explicit match that
propagates `ret`, `error` and `panic` outcomes. -/
def execute : Nat → Environment → Statement → Res
  | 0, _, _ => none
  | Nat.succ f, env, stmt =>
    match stmt with
    | Statement.expr e => evaluate f env e
    | Statement.assignment ident value => executeAssignment f env ident value
    | Statement.block statements => executeBlock f env statements true
    | Statement.ifStmt condition thenBranch otherwise =>
      executeIf f env condition thenBranch otherwise
    | Statement.whileStmt condition body => executeWhile f env condition body
    | Statement.functionDeclaration ident params body =>
      executeFunctionDeclaration f env ident params body
    | Statement.ret e => executeReturn f env e

/-- `Interpreter::execute_assignment`: evaluate the right-hand side,
then `define_or_assign`; `EmptyDeclarationNoType` is the reported
Runtime error, `InvalidType` the reported Type error. -/
def executeAssignment : Nat → Environment → Token → Expr → Res
  | 0, _, _, _ => none
  | Nat.succ f, env, ident, value =>
    match evaluate f env value with
    | none => none
    | some (env', Outcome.ok v) =>
      match defineOrAssign env' ident.lexeme v false with
      | none => some (env', Outcome.panic)
      | some (Except.error EnvError.emptyDeclarationNoType) =>
        some (env', Outcome.error ErrorType.runtimeError)
      | some (Except.error (EnvError.invalidType _)) =>
        some (env', Outcome.error ErrorType.typeError)
      | some (Except.ok env'') => some (env'', Outcome.ok Value.empty)
    | some (env', o) => some (env', o)

/-- The statement loop of `Interpreter::execute_block`.  A `Return`
statement appearing directly in the list is executed via
`execute_return`; an `Ok` value breaks the loop carrying the result and
any `Err` is returned as-is (in Rust, `return Err(ErrorOrReturn::Error)` —
a `ret` outcome cannot occur there and is collapsed the same way).  Any
other statement is executed with `?`-propagation, which exits the loop
early. -/
def executeBlockStmts : Nat → Environment → List Statement → Option (Environment × BlockExit)
  | 0, _, _ => none
  | Nat.succ f, env, [] => some (env, BlockExit.done none)
  | Nat.succ f, env, stmt :: rest =>
    match stmt with
    | Statement.ret e =>
      match executeReturn f env e with
      | none => none
      | some (env', Outcome.ok v) => some (env', BlockExit.done (some v))
      | some (env', Outcome.panic) => some (env', BlockExit.early Outcome.panic)
      | some (env', Outcome.error k) => some (env', BlockExit.early (Outcome.error k))
      | some (env', Outcome.ret _) =>
        some (env', BlockExit.early (Outcome.error ErrorType.runtimeError))
    | _ =>
      match execute f env stmt with
      | none => none
      | some (env', Outcome.ok _) => executeBlockStmts f env' rest
      | some (env', o) => some (env', BlockExit.early o)

/-- `Interpreter::execute_block`.  With `create_scope` a scope is pushed
inheriting the `function` flag of the innermost frame
(`scopes.last().unwrap()`; `panic` on an empty stack).  On an early
`?`-exit the Rust function returns without reaching `leave_scope`; only
the normal path pops the scope, and a pending `Return` result is
delivered as `Err(ErrorOrReturn::Return(value))`. -/
def executeBlock : Nat → Environment → List Statement → Bool → Res
  | 0, _, _, _ => none
  | Nat.succ f, env, statements, createScope =>
    if createScope then
      match env.scopes with
      | [] => some (env, Outcome.panic)
      | top :: _ =>
        match executeBlockStmts f (env.enterScope top.function) statements with
        | none => none
        | some (env', BlockExit.early o) => some (env', o)
        | some (env', BlockExit.done (some v)) => some (env'.leaveScope, Outcome.ret v)
        | some (env', BlockExit.done none) => some (env'.leaveScope, Outcome.ok Value.empty)
    else
      match executeBlockStmts f env statements with
      | none => none
      | some (env', BlockExit.early o) => some (env', o)
      | some (env', BlockExit.done (some v)) => some (env', Outcome.ret v)
      | some (env', BlockExit.done none) => some (env', Outcome.ok Value.empty)

/-- `Interpreter::execute_if`: the condition must be `Boolean(true)` or
`Boolean(false)` (otherwise the reported Type error); the taken branch
runs with `?`-propagation and the statement itself produces
`String("")`. -/
def executeIf : Nat → Environment → Expr → Statement → Option Statement → Res
  | 0, _, _, _, _ => none
  | Nat.succ f, env, condition, thenBranch, otherwise =>
    match evaluate f env condition with
    | none => none
    | some (env', Outcome.ok conditionValue) =>
      match conditionValue with
      | Value.boolean true =>
        match execute f env' thenBranch with
        | none => none
        | some (env'', Outcome.ok _) => some (env'', Outcome.ok (Value.string ""))
        | some (env'', o) => some (env'', o)
      | Value.boolean false =>
        match otherwise with
        | some elseBranch =>
          match execute f env' elseBranch with
          | none => none
          | some (env'', Outcome.ok _) => some (env'', Outcome.ok (Value.string ""))
          | some (env'', o) => some (env'', o)
        | none => some (env', Outcome.ok (Value.string ""))
      | _ => some (env', Outcome.error ErrorType.typeError)
    | some (env', o) => some (env', o)

/-- `Interpreter::execute_while`: loop while the condition evaluates to
`Boolean(true)`; any other condition value ends the loop normally with
`String("")` (the Rust source performs no type check here). -/
def executeWhile : Nat → Environment → Expr → Statement → Res
  | 0, _, _, _ => none
  | Nat.succ f, env, condition, body =>
    match evaluate f env condition with
    | none => none
    | some (env', Outcome.ok conditionValue) =>
      match conditionValue with
      | Value.boolean true =>
        match execute f env' body with
        | none => none
        | some (env'', Outcome.ok _) => executeWhile f env'' condition body
        | some (env'', o) => some (env'', o)
      | _ => some (env', Outcome.ok (Value.string ""))
    | some (env', o) => some (env', o)

/-- `Interpreter::execute_function_declaration`: build the `Function`
value and `define_or_assign` it; `InvalidType` is the reported Type
error, any other error is `unreachable!` (modelled by `panic`). -/
def executeFunctionDeclaration : Nat → Environment → Token → List Token → List Statement → Res
  | 0, _, _, _, _ => none
  | Nat.succ f, env, ident, params, body =>
    let functionValue := Value.function ident.lexeme (params.map Token.lexeme) body
    match defineOrAssign env ident.lexeme functionValue false with
    | none => some (env, Outcome.panic)
    | some (Except.error (EnvError.invalidType _)) => some (env, Outcome.error ErrorType.typeError)
    | some (Except.error EnvError.emptyDeclarationNoType) => some (env, Outcome.panic)
    | some (Except.ok env') => some (env', Outcome.ok Value.empty)

/-- `Interpreter::execute_return`: legal iff some frame of the scope
stack has its `function` flag set, in which case the expression is
evaluated; otherwise the reported `Illegal use of return` Runtime
error. -/
def executeReturn : Nat → Environment → Expr → Res
  | 0, _, _ => none
  | Nat.succ f, env, e =>
    if env.scopes.any Scope.function then evaluate f env e
    else some (env, Outcome.error ErrorType.runtimeError)

/-- `Interpreter::evaluate`: dispatch on the expression. -/
def evaluate : Nat → Environment → Expr → Res
  | 0, _, _ => none
  | Nat.succ f, env, e =>
    match e with
    | Expr.primary value => some (env, evaluatePrimary value)
    | Expr.unary operator expr => evaluateUnary f env operator expr
    | Expr.binary leftExpr operator rightExpr => evaluateBinary f env leftExpr operator rightExpr
    | Expr.grouping expr => evaluate f env expr
    | Expr.var name => some (evaluateVariable env name)
    | Expr.call callee closingParen arguments => evaluateCall f env callee closingParen arguments

/-- `Interpreter::evaluate_unary`: `!` needs a `Boolean`, `-` needs a
`Number` (else the reported Type error); other operators are
`unreachable!`. -/
def evaluateUnary : Nat → Environment → Token → Expr → Res
  | 0, _, _, _ => none
  | Nat.succ f, env, operator, expr =>
    match evaluate f env expr with
    | none => none
    | some (env', Outcome.ok value) =>
      match operator.tokenType with
      | TokenType.Bang =>
        match value with
        | Value.boolean b => some (env', Outcome.ok (Value.boolean (!b)))
        | _ => some (env', Outcome.error ErrorType.typeError)
      | TokenType.Minus =>
        match value with
        | Value.number n => some (env', Outcome.ok (Value.number (F64.fneg n)))
        | _ => some (env', Outcome.error ErrorType.typeError)
      | _ => some (env', Outcome.panic)
    | some (env', o) => some (env', o)

/-- `Interpreter::evaluate_binary`: evaluate the left operand; `or`/`and`
short-circuit through `evaluate_binary_logic`, every other operator
evaluates the right operand and dispatches to the pure helpers. -/
def evaluateBinary : Nat → Environment → Expr → Token → Expr → Res
  | 0, _, _, _, _ => none
  | Nat.succ f, env, leftExpr, operator, rightExpr =>
    match evaluate f env leftExpr with
    | none => none
    | some (env', Outcome.ok leftValue) =>
      if operator.tokenType = TokenType.Or ∨ operator.tokenType = TokenType.And then
        evaluateBinaryLogic f env' leftValue operator rightExpr
      else
        match evaluate f env' rightExpr with
        | none => none
        | some (env'', Outcome.ok rightValue) =>
          match operator.tokenType with
          | TokenType.BangEqual => some (env'', evaluateEquality leftValue operator rightValue)
          | TokenType.EqualEqual => some (env'', evaluateEquality leftValue operator rightValue)
          | TokenType.Greater => some (env'', evaluateComparison leftValue operator rightValue)
          | TokenType.GreaterEqual => some (env'', evaluateComparison leftValue operator rightValue)
          | TokenType.Less => some (env'', evaluateComparison leftValue operator rightValue)
          | TokenType.LessEqual => some (env'', evaluateComparison leftValue operator rightValue)
          | TokenType.Plus => some (env'', evaluateMathOperation leftValue operator rightValue)
          | TokenType.Minus => some (env'', evaluateMathOperation leftValue operator rightValue)
          | TokenType.Star => some (env'', evaluateMathOperation leftValue operator rightValue)
          | TokenType.Slash => some (env'', evaluateMathOperation leftValue operator rightValue)
          | TokenType.Percent => some (env'', evaluateMathOperation leftValue operator rightValue)
          | TokenType.Caret => some (env'', evaluateMathOperation leftValue operator rightValue)
          | _ => some (env'', Outcome.panic)
        | some (env'', o) => some (env'', o)
    | some (env', o) => some (env', o)

/-- `Interpreter::evaluate_binary_logic`: `and` yields `Boolean(false)`
without evaluating the right operand unless the left is
`Boolean(true)`; `or` yields the left value if it is `Boolean(true)`;
otherwise the right operand decides (`Boolean(true)` or
`Boolean(false)`). -/
def evaluateBinaryLogic : Nat → Environment → Value → Token → Expr → Res
  | 0, _, _, _, _ => none
  | Nat.succ f, env, leftValue, operator, rightExpr =>
    let shortCircuit : Option (Environment × Outcome) :=
      match operator.tokenType with
      | TokenType.And =>
        match leftValue with
        | Value.boolean true => none
        | _ => some (env, Outcome.ok (Value.boolean false))
      | TokenType.Or =>
        match leftValue with
        | Value.boolean true => some (env, Outcome.ok leftValue)
        | _ => none
      | _ => some (env, Outcome.panic)
    match shortCircuit with
    | some r => some r
    | none =>
      match evaluate f env rightExpr with
      | none => none
      | some (env', Outcome.ok rightValue) =>
        match rightValue with
        | Value.boolean true => some (env', Outcome.ok rightValue)
        | _ => some (env', Outcome.ok (Value.boolean false))
      | some (env', o) => some (env', o)

/-- The argument loop of `Interpreter::evaluate_call` (left-to-right,
`?`-propagation). -/
def evaluateArgs : Nat → Environment → List Expr → Option (Environment × ArgsOutcome)
  | 0, _, _ => none
  | Nat.succ f, env, [] => some (env, ArgsOutcome.vals [])
  | Nat.succ f, env, a :: rest =>
    match evaluate f env a with
    | none => none
    | some (env', Outcome.ok v) =>
      match evaluateArgs f env' rest with
      | none => none
      | some (env'', ArgsOutcome.vals vs) => some (env'', ArgsOutcome.vals (v :: vs))
      | some (env'', ArgsOutcome.early o) => some (env'', ArgsOutcome.early o)
    | some (env', o) => some (env', ArgsOutcome.early o)

/-- `Interpreter::evaluate_call`: evaluate the callee and the arguments,
require a `Function`/`NativeFunction` callee (else the reported
`Expression not callable` Type error) with exactly matching arity (else
the reported arity Type error), then `Value::call`. -/
def evaluateCall : Nat → Environment → Expr → Token → List Expr → Res
  | 0, _, _, _, _ => none
  | Nat.succ f, env, callee, closingParen, arguments =>
    match evaluate f env callee with
    | none => none
    | some (env', Outcome.ok calleeValue) =>
      match evaluateArgs f env' arguments with
      | none => none
      | some (env'', ArgsOutcome.early o) => some (env'', o)
      | some (env'', ArgsOutcome.vals argumentsValues) =>
        match calleeValue with
        | Value.function _ args _ =>
          if args.length = argumentsValues.length then
            callValue f env'' calleeValue args argumentsValues
          else some (env'', Outcome.error ErrorType.typeError)
        | Value.nativeFunction _ args _ =>
          if args.length = argumentsValues.length then
            callValue f env'' calleeValue args argumentsValues
          else some (env'', Outcome.error ErrorType.typeError)
        | _ => some (env'', Outcome.error ErrorType.typeError)
    | some (env', o) => some (env', o)

/-- `Value::call`.  For a user function: push a function scope, bind the
parameters (`unwrap`, see `bindArgs`), run the body as a scope-less
block; an `Error` result is returned before `leave_scope` is reached
(the Rust early `return`), while a `Return(value)` or normal completion
pops one scope and yields the value (resp. untyped `Empty`).  For a
native function the host callable decides.  Calling any other value is
`unreachable!`. -/
def callValue : Nat → Environment → Value → List String → List Value → Res
  | 0, _, _, _, _ => none
  | Nat.succ f, env, v, arguments, argumentsValues =>
    match v with
    | Value.function _ _ body =>
      let env₁ := env.enterScope true
      match bindArgs env₁ arguments argumentsValues with
      | none => some (env₁, Outcome.panic)
      | some env₂ =>
        match executeBlock f env₂ body false with
        | none => none
        | some (env₃, Outcome.ok _) => some (env₃.leaveScope, Outcome.ok Value.empty)
        | some (env₃, Outcome.ret value) => some (env₃.leaveScope, Outcome.ok value)
        | some (env₃, Outcome.error k) => some (env₃, Outcome.error k)
        | some (env₃, Outcome.panic) => some (env₃, Outcome.panic)
    | Value.nativeFunction _ _ tag =>
      match callNative tag argumentsValues with
      | some result => some (env, Outcome.ok result)
      | none => some (env, Outcome.panic)
    | _ => some (env, Outcome.panic)

end

/-- The statement loop of `Interpreter::interpret`: statements run in
order, the last `Ok` value is carried along (`Value.empty` renders as
the initial empty result string), and any `Err` aborts the run. -/
def interpretLoop (f : Nat) : Environment → List Statement → Value → Res
  | env, [], last => some (env, Outcome.ok last)
  | env, stmt :: rest, last =>
    match execute f env stmt with
    | none => none
    | some (env', Outcome.ok v) => interpretLoop f env' rest v
    | some (env', o) => some (env', o)

/-- `Interpreter::interpret` (fuel-indexed; the rendering of the final
value to a string is not modelled, the value itself is returned). -/
def interpret (f : Nat) (env : Environment) (statements : List Statement) : Res :=
  interpretLoop f env statements Value.empty

/-- The mutable state of the Rust `struct Parser`: the token list and
the cursor (`current: i64`; the parser never lets it go negative, so
`Nat` with truncated subtraction in `backtrack` is an exact model). -/
structure PState where
  tokens : List Token
  current : Nat

/-- Placeholder returned when indexing past the token list.  The Rust
code indexes `self.tokens[self.current]` and would panic there; the
lexer always terminates its output with an `EOF` token and the parser
never moves the cursor past it, so the placeholder is unreachable on
lexer-produced input. -/
def outOfRange : Token := ⟨TokenType.EOF, "", 0, 0⟩

namespace PState

/-- `Parser::peek`. -/
def peek (st : PState) : Token := st.tokens.getD st.current outOfRange

/-- `Parser::previous`. -/
def previous (st : PState) : Token := st.tokens.getD (st.current - 1) outOfRange

/-- `Parser::is_at_end`. -/
def isAtEnd (st : PState) : Bool := st.peek.tokenType == TokenType.EOF

/-- `Parser::advance` (increments the cursor unless at `EOF`, then
returns `previous`). -/
def advance (st : PState) : PState × Token :=
  let st' := if st.isAtEnd then st else { st with current := st.current + 1 }
  (st', st'.previous)

/-- `Parser::backtrack`. -/
def backtrack (st : PState) : PState :=
  if st.current ≠ 0 then { st with current := st.current - 1 } else st

/-- `Parser::next_is`. -/
def nextIs (st : PState) (tokenType : TokenType) : Bool :=
  if st.isAtEnd then false else st.peek.tokenType == tokenType

/-- `Parser::match_one`. -/
def matchOne (st : PState) (tokenType : TokenType) : PState × Bool :=
  if st.nextIs tokenType then (st.advance.1, true) else (st, false)

/-- `Parser::match_any`. -/
def matchAny (st : PState) : List TokenType → PState × Bool
  | [] => (st, false)
  | t :: rest => if st.nextIs t then (st.advance.1, true) else st.matchAny rest

/-- `Parser::consume_or_report` (the reported message text is not
modelled). -/
def consumeOrReport (st : PState) (tokenType : TokenType) : PState × Except Unit Token :=
  if st.nextIs tokenType then
    let (st', t) := st.advance
    (st', Except.ok t)
  else (st, Except.error ())

/-- `Parser::consume_eol_or_report`. -/
def consumeEolOrReport (st : PState) : PState × Except Unit Token :=
  if st.peek.tokenType == TokenType.EOF || st.nextIs TokenType.EOL then
    let (st', t) := st.advance
    (st', Except.ok t)
  else (st, Except.error ())

end PState

/-- `Parser::ignore_empty_lines` (fuel-indexed loop). -/
def ignoreEmptyLines : Nat → PState → PState
  | 0, st => st
  | Nat.succ f, st =>
    if st.peek.tokenType == TokenType.EOL && !st.isAtEnd then
      ignoreEmptyLines f st.advance.1
    else st

/-- The loop inside `Parser::synchronize`. -/
def syncLoop : Nat → PState → PState
  | 0, st => st
  | Nat.succ f, st =>
    if st.isAtEnd then st
    else if st.previous.tokenType == TokenType.EOL then st
    else
      match st.peek.tokenType with
      | TokenType.Function => st
      | TokenType.For => st
      | TokenType.If => st
      | TokenType.While => st
      | TokenType.Return => st
      | TokenType.Match => st
      | _ => syncLoop f st.advance.1

/-- `Parser::synchronize`: skip one token, then discard up to an `EOL`
or a statement-starting keyword. -/
def synchronize (f : Nat) (st : PState) : PState :=
  syncLoop f st.advance.1

namespace Parser

mutual

/-- `Parser::statement`: assignment lookahead on an identifier
(backtracking otherwise), then the block/`if`/`while`/`f` dispatch,
falling back to an expression statement. -/
def statement : Nat → PState → Option (PState × Except Unit Statement)
  | 0, _ => none
  | Nat.succ f, st =>
    let (st₁, mIdent) := st.matchOne TokenType.Identifier
    if mIdent then
      if st₁.peek.tokenType == TokenType.Equal then assignStatement f st₁
      else expressionStatement f st₁.backtrack
    else
      let (st₂, mBrace) := st₁.matchOne TokenType.LeftBrace
      if mBrace then
        match blockStatement f st₂ with
        | none => none
        | some (st₃, Except.ok stmts) => some (st₃, Except.ok (Statement.block stmts))
        | some (st₃, Except.error e) => some (st₃, Except.error e)
      else
        let (st₃, mIf) := st₂.matchOne TokenType.If
        if mIf then ifStatement f st₃
        else
          let (st₄, mWhile) := st₃.matchOne TokenType.While
          if mWhile then whileStatement f st₄
          else
            let (st₅, mFn) := st₄.matchOne TokenType.Function
            if mFn then functionStatement f st₅
            else expressionStatement f st₅

/-- `Parser::assign_statement` (the identifier is already consumed and
the next token is `=`). -/
def assignStatement : Nat → PState → Option (PState × Except Unit Statement)
  | 0, _ => none
  | Nat.succ f, st =>
    let ident := st.previous
    let (st₁, _) := st.advance
    let (st₂, mEmpty) := st₁.matchOne TokenType.Empty
    match (if mEmpty then emptyType f st₂ else expression f st₂) with
    | none => none
    | some (st₃, Except.error e) => some (st₃, Except.error e)
    | some (st₃, Except.ok value) =>
      match st₃.consumeEolOrReport with
      | (st₄, Except.error e) => some (st₄, Except.error e)
      | (st₄, Except.ok _) => some (st₄, Except.ok (Statement.assignment ident value))

/-- `Parser::empty_type` (the `empty` keyword is already consumed): a
bare `empty`, or `empty(boolean)` / `empty(number)`; `empty(string)`
and any other parenthesised form are reported parse errors. -/
def emptyType : Nat → PState → Option (PState × Except Unit Expr)
  | 0, _ => none
  | Nat.succ f, st =>
    let (st₁, mParen) := st.matchOne TokenType.LeftParen
    if !mParen then some (st₁, Except.ok (Expr.primary st₁.previous))
    else
      let (st₂, mType) := st₁.matchAny [TokenType.Boolean, TokenType.Number]
      if !mType then some (st₂, Except.error ())
      else
        let result := Expr.primary st₂.previous
        match st₂.consumeOrReport TokenType.RightParen with
        | (st₃, Except.error e) => some (st₃, Except.error e)
        | (st₃, Except.ok _) => some (st₃, Except.ok result)

/-- `Parser::block_statement` (the `{` is already consumed): a required
`EOL`, the statement loop, and the closing `}`. -/
def blockStatement : Nat → PState → Option (PState × Except Unit (List Statement))
  | 0, _ => none
  | Nat.succ f, st =>
    match st.consumeOrReport TokenType.EOL with
    | (st₁, Except.error e) => some (st₁, Except.error e)
    | (st₁, Except.ok _) =>
      match blockStmtsLoop f st₁ [] with
      | none => none
      | some (st₂, Except.error e) => some (st₂, Except.error e)
      | some (st₂, Except.ok statements) =>
        match st₂.consumeOrReport TokenType.RightBrace with
        | (st₃, Except.error e) => some (st₃, Except.error e)
        | (st₃, Except.ok _) => some (st₃, Except.ok statements)

/-- The statement loop inside `Parser::block_statement`. -/
def blockStmtsLoop : Nat → PState → List Statement → Option (PState × Except Unit (List Statement))
  | 0, _, _ => none
  | Nat.succ f, st, acc =>
    if !(st.nextIs TokenType.RightBrace) && !st.isAtEnd then
      let (st₁, mEol) := st.matchOne TokenType.EOL
      if mEol then blockStmtsLoop f st₁ acc
      else
        match statement f st₁ with
        | none => none
        | some (st₂, Except.error e) => some (st₂, Except.error e)
        | some (st₂, Except.ok s) => blockStmtsLoop f st₂ (acc ++ [s])
    else some (st, Except.ok acc)

/-- `Parser::if_statement` (the `if` keyword is already consumed). -/
def ifStatement : Nat → PState → Option (PState × Except Unit Statement)
  | 0, _ => none
  | Nat.succ f, st =>
    match expression f st with
    | none => none
    | some (st₁, Except.error e) => some (st₁, Except.error e)
    | some (st₁, Except.ok condition) =>
      match st₁.consumeOrReport TokenType.LeftBrace with
      | (st₂, Except.error e) => some (st₂, Except.error e)
      | (st₂, Except.ok _) =>
        match blockStatement f st₂ with
        | none => none
        | some (st₃, Except.error e) => some (st₃, Except.error e)
        | some (st₃, Except.ok thenStmts) =>
          let thenBranch := Statement.block thenStmts
          let st₄ := ignoreEmptyLines f st₃
          let (st₅, mElse) := st₄.matchOne TokenType.Else
          if mElse then
            let (st₆, mIf) := st₅.matchOne TokenType.If
            if mIf then
              match ifStatement f st₆ with
              | none => none
              | some (st₇, Except.error e) => some (st₇, Except.error e)
              | some (st₇, Except.ok elseIf) =>
                some (st₇, Except.ok (Statement.ifStmt condition thenBranch (some elseIf)))
            else
              match st₆.consumeOrReport TokenType.LeftBrace with
              | (st₇, Except.error e) => some (st₇, Except.error e)
              | (st₇, Except.ok _) =>
                match blockStatement f st₇ with
                | none => none
                | some (st₈, Except.error e) => some (st₈, Except.error e)
                | some (st₈, Except.ok elseStmts) =>
                  some (st₈, Except.ok (Statement.ifStmt condition thenBranch
                    (some (Statement.block elseStmts))))
          else some (st₅, Except.ok (Statement.ifStmt condition thenBranch none))

/-- `Parser::while_statement` (the `while` keyword is already
consumed). -/
def whileStatement : Nat → PState → Option (PState × Except Unit Statement)
  | 0, _ => none
  | Nat.succ f, st =>
    match expression f st with
    | none => none
    | some (st₁, Except.error e) => some (st₁, Except.error e)
    | some (st₁, Except.ok condition) =>
      match st₁.consumeOrReport TokenType.LeftBrace with
      | (st₂, Except.error e) => some (st₂, Except.error e)
      | (st₂, Except.ok _) =>
        match blockStatement f st₂ with
        | none => none
        | some (st₃, Except.error e) => some (st₃, Except.error e)
        | some (st₃, Except.ok bodyStmts) =>
          some (st₃, Except.ok (Statement.whileStmt condition (Statement.block bodyStmts)))

/-- The parameter loop inside `Parser::function_statement` (`, IDENT`
repetitions). -/
def paramsLoop : Nat → PState → List Token → Option (PState × Except Unit (List Token))
  | 0, _, _ => none
  | Nat.succ f, st, acc =>
    let (st₁, mComma) := st.matchOne TokenType.Comma
    if mComma then
      match st₁.consumeOrReport TokenType.Identifier with
      | (st₂, Except.error e) => some (st₂, Except.error e)
      | (st₂, Except.ok p) => paramsLoop f st₂ (acc ++ [p])
    else some (st₁, Except.ok acc)

/-- `Parser::function_statement` (the `f` keyword is already consumed). -/
def functionStatement : Nat → PState → Option (PState × Except Unit Statement)
  | 0, _ => none
  | Nat.succ f, st =>
    match st.consumeOrReport TokenType.Identifier with
    | (st₁, Except.error e) => some (st₁, Except.error e)
    | (st₁, Except.ok name) =>
      match st₁.consumeOrReport TokenType.LeftParen with
      | (st₂, Except.error e) => some (st₂, Except.error e)
      | (st₂, Except.ok _) =>
        match
          (if !(st₂.nextIs TokenType.RightParen) then
            match st₂.consumeOrReport TokenType.Identifier with
            | (st₃, Except.error e) => some (st₃, Except.error e)
            | (st₃, Except.ok p) => paramsLoop f st₃ [p]
          else some (st₂, Except.ok ([] : List Token))) with
        | none => none
        | some (st₄, Except.error e) => some (st₄, Except.error e)
        | some (st₄, Except.ok parameters) =>
          match st₄.consumeOrReport TokenType.RightParen with
          | (st₅, Except.error e) => some (st₅, Except.error e)
          | (st₅, Except.ok _) =>
            match st₅.consumeOrReport TokenType.LeftBrace with
            | (st₆, Except.error e) => some (st₆, Except.error e)
            | (st₆, Except.ok _) =>
              match blockStatement f st₆ with
              | none => none
              | some (st₇, Except.error e) => some (st₇, Except.error e)
              | some (st₇, Except.ok body) =>
                some (st₇, Except.ok (Statement.functionDeclaration name parameters body))

/-- `Parser::expression_statement`. -/
def expressionStatement : Nat → PState → Option (PState × Except Unit Statement)
  | 0, _ => none
  | Nat.succ f, st =>
    match expression f st with
    | none => none
    | some (st₁, Except.error e) => some (st₁, Except.error e)
    | some (st₁, Except.ok e) =>
      match st₁.consumeEolOrReport with
      | (st₂, Except.error err) => some (st₂, Except.error err)
      | (st₂, Except.ok _) => some (st₂, Except.ok (Statement.expr e))

/-- `Parser::expression`. -/
def expression : Nat → PState → Option (PState × Except Unit Expr)
  | 0, _ => none
  | Nat.succ f, st => orExpr f st

/-- `Parser::or` (left-associative `or` chain). -/
def orExpr : Nat → PState → Option (PState × Except Unit Expr)
  | 0, _ => none
  | Nat.succ f, st =>
    match andExpr f st with
    | none => none
    | some (st₁, Except.error e) => some (st₁, Except.error e)
    | some (st₁, Except.ok e) => orLoop f st₁ e

/-- The `while match_one(Or)` loop of `Parser::or`. -/
def orLoop : Nat → PState → Expr → Option (PState × Except Unit Expr)
  | 0, _, _ => none
  | Nat.succ f, st, e =>
    let (st₁, m) := st.matchOne TokenType.Or
    if m then
      let operator := st₁.previous
      match andExpr f st₁ with
      | none => none
      | some (st₂, Except.error err) => some (st₂, Except.error err)
      | some (st₂, Except.ok right) => orLoop f st₂ (Expr.binary e operator right)
    else some (st₁, Except.ok e)

/-- `Parser::and` (left-associative `and` chain). -/
def andExpr : Nat → PState → Option (PState × Except Unit Expr)
  | 0, _ => none
  | Nat.succ f, st =>
    match equality f st with
    | none => none
    | some (st₁, Except.error e) => some (st₁, Except.error e)
    | some (st₁, Except.ok e) => andLoop f st₁ e

/-- The `while match_one(And)` loop of `Parser::and`. -/
def andLoop : Nat → PState → Expr → Option (PState × Except Unit Expr)
  | 0, _, _ => none
  | Nat.succ f, st, e =>
    let (st₁, m) := st.matchOne TokenType.And
    if m then
      let operator := st₁.previous
      match equality f st₁ with
      | none => none
      | some (st₂, Except.error err) => some (st₂, Except.error err)
      | some (st₂, Except.ok right) => andLoop f st₂ (Expr.binary e operator right)
    else some (st₁, Except.ok e)

/-- `Parser::equality` (left-associative `==` / `!=` chain). -/
def equality : Nat → PState → Option (PState × Except Unit Expr)
  | 0, _ => none
  | Nat.succ f, st =>
    match comparison f st with
    | none => none
    | some (st₁, Except.error e) => some (st₁, Except.error e)
    | some (st₁, Except.ok e) => equalityLoop f st₁ e

/-- The equality-operator loop of `Parser::equality`. -/
def equalityLoop : Nat → PState → Expr → Option (PState × Except Unit Expr)
  | 0, _, _ => none
  | Nat.succ f, st, e =>
    let (st₁, m) := st.matchAny [TokenType.BangEqual, TokenType.EqualEqual]
    if m then
      let operator := st₁.previous
      match comparison f st₁ with
      | none => none
      | some (st₂, Except.error err) => some (st₂, Except.error err)
      | some (st₂, Except.ok right) => equalityLoop f st₂ (Expr.binary e operator right)
    else some (st₁, Except.ok e)

/-- `Parser::comparison`: a leading `empty` is accepted as a complete
comparison-level expression; otherwise a left-associative
`>=`/`>`/`<=`/`<` chain over terms. -/
def comparison : Nat → PState → Option (PState × Except Unit Expr)
  | 0, _ => none
  | Nat.succ f, st =>
    let (st₁, mEmpty) := st.matchOne TokenType.Empty
    if mEmpty then some (st₁, Except.ok (Expr.primary st₁.previous))
    else
      match term f st₁ with
      | none => none
      | some (st₂, Except.error e) => some (st₂, Except.error e)
      | some (st₂, Except.ok e) => comparisonLoop f st₂ e

/-- The comparison-operator loop of `Parser::comparison`. -/
def comparisonLoop : Nat → PState → Expr → Option (PState × Except Unit Expr)
  | 0, _, _ => none
  | Nat.succ f, st, e =>
    let (st₁, m) := st.matchAny
      [TokenType.GreaterEqual, TokenType.Greater, TokenType.LessEqual, TokenType.Less]
    if m then
      let operator := st₁.previous
      match term f st₁ with
      | none => none
      | some (st₂, Except.error err) => some (st₂, Except.error err)
      | some (st₂, Except.ok right) => comparisonLoop f st₂ (Expr.binary e operator right)
    else some (st₁, Except.ok e)

/-- `Parser::term` (left-associative `-` / `+` chain). -/
def term : Nat → PState → Option (PState × Except Unit Expr)
  | 0, _ => none
  | Nat.succ f, st =>
    match modulo f st with
    | none => none
    | some (st₁, Except.error e) => some (st₁, Except.error e)
    | some (st₁, Except.ok e) => termLoop f st₁ e

/-- The `-`/`+` loop of `Parser::term`. -/
def termLoop : Nat → PState → Expr → Option (PState × Except Unit Expr)
  | 0, _, _ => none
  | Nat.succ f, st, e =>
    let (st₁, m) := st.matchAny [TokenType.Minus, TokenType.Plus]
    if m then
      let operator := st₁.previous
      match modulo f st₁ with
      | none => none
      | some (st₂, Except.error err) => some (st₂, Except.error err)
      | some (st₂, Except.ok right) => termLoop f st₂ (Expr.binary e operator right)
    else some (st₁, Except.ok e)

/-- `Parser::modulo` (left-associative `%` chain). -/
def modulo : Nat → PState → Option (PState × Except Unit Expr)
  | 0, _ => none
  | Nat.succ f, st =>
    match factor f st with
    | none => none
    | some (st₁, Except.error e) => some (st₁, Except.error e)
    | some (st₁, Except.ok e) => moduloLoop f st₁ e

/-- The `%` loop of `Parser::modulo`. -/
def moduloLoop : Nat → PState → Expr → Option (PState × Except Unit Expr)
  | 0, _, _ => none
  | Nat.succ f, st, e =>
    let (st₁, m) := st.matchOne TokenType.Percent
    if m then
      let operator := st₁.previous
      match factor f st₁ with
      | none => none
      | some (st₂, Except.error err) => some (st₂, Except.error err)
      | some (st₂, Except.ok right) => moduloLoop f st₂ (Expr.binary e operator right)
    else some (st₁, Except.ok e)

/-- `Parser::factor` (left-associative `/` / `*` chain). -/
def factor : Nat → PState → Option (PState × Except Unit Expr)
  | 0, _ => none
  | Nat.succ f, st =>
    match exponentiation f st with
    | none => none
    | some (st₁, Except.error e) => some (st₁, Except.error e)
    | some (st₁, Except.ok e) => factorLoop f st₁ e

/-- The `/`/`*` loop of `Parser::factor`. -/
def factorLoop : Nat → PState → Expr → Option (PState × Except Unit Expr)
  | 0, _, _ => none
  | Nat.succ f, st, e =>
    let (st₁, m) := st.matchAny [TokenType.Slash, TokenType.Star]
    if m then
      let operator := st₁.previous
      match exponentiation f st₁ with
      | none => none
      | some (st₂, Except.error err) => some (st₂, Except.error err)
      | some (st₂, Except.ok right) => factorLoop f st₂ (Expr.binary e operator right)
    else some (st₁, Except.ok e)

/-- `Parser::exponentiation` (left-associative `^` chain). -/
def exponentiation : Nat → PState → Option (PState × Except Unit Expr)
  | 0, _ => none
  | Nat.succ f, st =>
    match unary f st with
    | none => none
    | some (st₁, Except.error e) => some (st₁, Except.error e)
    | some (st₁, Except.ok e) => exponentiationLoop f st₁ e

/-- The `^` loop of `Parser::exponentiation`. -/
def exponentiationLoop : Nat → PState → Expr → Option (PState × Except Unit Expr)
  | 0, _, _ => none
  | Nat.succ f, st, e =>
    let (st₁, m) := st.matchOne TokenType.Caret
    if m then
      let operator := st₁.previous
      match unary f st₁ with
      | none => none
      | some (st₂, Except.error err) => some (st₂, Except.error err)
      | some (st₂, Except.ok right) => exponentiationLoop f st₂ (Expr.binary e operator right)
    else some (st₁, Except.ok e)

/-- `Parser::unary`: prefix `-`/`!`, otherwise a call chain. -/
def unary : Nat → PState → Option (PState × Except Unit Expr)
  | 0, _ => none
  | Nat.succ f, st =>
    let (st₁, m) := st.matchAny [TokenType.Minus, TokenType.Bang]
    if m then
      let operator := st₁.previous
      match unary f st₁ with
      | none => none
      | some (st₂, Except.error err) => some (st₂, Except.error err)
      | some (st₂, Except.ok e) => some (st₂, Except.ok (Expr.unary operator e))
    else call f st₁

/-- `Parser::call`: a primary followed by any number of argument
lists. -/
def call : Nat → PState → Option (PState × Except Unit Expr)
  | 0, _ => none
  | Nat.succ f, st =>
    match primary f st with
    | none => none
    | some (st₁, Except.error e) => some (st₁, Except.error e)
    | some (st₁, Except.ok e) => callLoop f st₁ e

/-- The call-chain loop of `Parser::call`. -/
def callLoop : Nat → PState → Expr → Option (PState × Except Unit Expr)
  | 0, _, _ => none
  | Nat.succ f, st, e =>
    let (st₁, m) := st.matchOne TokenType.LeftParen
    if m then
      match finishCall f st₁ e with
      | none => none
      | some (st₂, Except.error err) => some (st₂, Except.error err)
      | some (st₂, Except.ok e') => callLoop f st₂ e'
    else some (st₁, Except.ok e)

/-- The argument loop inside `Parser::finish_call` (`, expr`
repetitions). -/
def argsLoop : Nat → PState → List Expr → Option (PState × Except Unit (List Expr))
  | 0, _, _ => none
  | Nat.succ f, st, acc =>
    let (st₁, mComma) := st.matchOne TokenType.Comma
    if mComma then
      match expression f st₁ with
      | none => none
      | some (st₂, Except.error e) => some (st₂, Except.error e)
      | some (st₂, Except.ok a) => argsLoop f st₂ (acc ++ [a])
    else some (st₁, Except.ok acc)

/-- `Parser::finish_call` (the `(` is already consumed). -/
def finishCall : Nat → PState → Expr → Option (PState × Except Unit Expr)
  | 0, _, _ => none
  | Nat.succ f, st, e =>
    match
      (if !(st.nextIs TokenType.RightParen) then
        match expression f st with
        | none => none
        | some (st₁, Except.error err) => some (st₁, Except.error err)
        | some (st₁, Except.ok a) => argsLoop f st₁ [a]
      else some (st, Except.ok ([] : List Expr))) with
    | none => none
    | some (st₂, Except.error err) => some (st₂, Except.error err)
    | some (st₂, Except.ok arguments) =>
      match st₂.consumeOrReport TokenType.RightParen with
      | (st₃, Except.error err) => some (st₃, Except.error err)
      | (st₃, Except.ok closingParen) =>
        some (st₃, Except.ok (Expr.call e closingParen arguments))

/-- `Parser::primary`: `true`/`false`, a literal, an identifier, or a
parenthesised expression; everything else — in particular the `empty`
keyword reaching this point — is a reported parse error. -/
def primary : Nat → PState → Option (PState × Except Unit Expr)
  | 0, _ => none
  | Nat.succ f, st =>
    let (st₁, mBool) := st.matchAny [TokenType.False, TokenType.True]
    if mBool then some (st₁, Except.ok (Expr.primary st₁.previous))
    else
      match st₁.peek.tokenType with
      | TokenType.StringLiteral _ =>
        let (st₂, _) := st₁.advance
        some (st₂, Except.ok (Expr.primary st₂.previous))
      | TokenType.NumberLiteral _ =>
        let (st₂, _) := st₁.advance
        some (st₂, Except.ok (Expr.primary st₂.previous))
      | TokenType.Identifier =>
        let (st₂, _) := st₁.advance
        some (st₂, Except.ok (Expr.var st₂.previous))
      | _ =>
        let (st₂, mParen) := st₁.matchOne TokenType.LeftParen
        if mParen then
          match expression f st₂ with
          | none => none
          | some (st₃, Except.error err) => some (st₃, Except.error err)
          | some (st₃, Except.ok e) =>
            match st₃.consumeOrReport TokenType.RightParen with
            | (st₄, Except.error err) => some (st₄, Except.error err)
            | (st₄, Except.ok _) => some (st₄, Except.ok (Expr.grouping e))
        else some (st₂, Except.error ())

end

/-- The statement loop of `Parser::parse`: skip blank lines, parse
statements, synchronize after an error (recording it), and stop at
`EOF`. -/
def parseLoop : Nat → PState → List Statement → Bool → Option (PState × List Statement × Bool)
  | 0, _, _, _ => none
  | Nat.succ f, st, acc, hasError =>
    if st.isAtEnd then some (st, acc, hasError)
    else
      let (st₁, mEol) := st.matchOne TokenType.EOL
      if mEol then parseLoop f st₁ acc hasError
      else
        match statement f st₁ with
        | none => none
        | some (st₂, Except.ok s) => parseLoop f st₂ (acc ++ [s]) hasError
        | some (st₂, Except.error _) => parseLoop f (synchronize f st₂) acc true

/-- `Parser::parse` on a token list (fuel chosen generously from the
input size): `Except.error ()` when any statement failed, otherwise the
parsed statement list. -/
def parse (tokens : List Token) : Option (Except Unit (List Statement)) :=
  match parseLoop ((tokens.length + 1) * 100) ⟨tokens, 0⟩ [] false with
  | none => none
  | some (_, statements, hasError) =>
    some (if hasError then Except.error () else Except.ok statements)

end Parser

/-- The mutable position state of the Rust `struct Lexer` together with
the accumulated token list.  The source is handled as the list of its
characters (Rust indexes `source.chars()` by the `start`/`current`
offsets; here the already-consumed prefix is dropped instead, and the
lexeme of the current token is assembled from the consumed
characters). -/
structure LexState where
  tokens : List Token
  line : Nat
  column : Nat

/-- Number of characters after the last newline of a string-literal
value (the Rust `lit.substring(last.0 + 1, …).chars().count()` in
`Lexer::add_token`). -/
def lastLineLen (l : List Char) : Nat := (l.reverse.takeWhile (fun c => c != '\n')).length

/-- `Lexer::add_token`: push the token at the current position, then
advance the position past its lexeme (`EOL` starts a new line; a string
literal advances by its content, accounting for embedded newlines plus
the two quotes; anything else advances by the lexeme length). -/
def addToken (st : LexState) (tokenType : TokenType) (lexeme : String) : LexState :=
  let tokens := st.tokens ++ [⟨tokenType, lexeme, st.line, st.column⟩]
  match tokenType with
  | TokenType.EOL => { tokens, line := st.line + 1, column := 1 }
  | TokenType.StringLiteral lit =>
    let ls := lit.toList
    let count := ls.count '\n'
    if count = 0 then { tokens, line := st.line, column := st.column + ls.length + 2 }
    else { tokens, line := st.line + count, column := lastLineLen ls + 2 }
  | _ => { tokens, line := st.line, column := st.column + lexeme.length }

/-- `Lexer::match_char`. -/
def matchChar (expected : Char) : List Char → Bool × List Char
  | [] => (false, [])
  | c :: r => if c = expected then (true, r) else (false, c :: r)

/-- The `// …` loop of `Lexer::scan_token`: consume to (but not
including) the next newline, counting columns. -/
def lineComment : LexState → List Char → LexState × List Char
  | st, [] => (st, [])
  | st, c :: r =>
    if c = '\n' then (st, c :: r)
    else lineComment { st with column := st.column + 1 } r

/-- The `/* … */` loop of `Lexer::scan_token`: consume until a `/`
whose previously consumed character was `*` (note that the initial
`prev` is the `*` of the opener, so `/*/` already closes), tracking
lines and columns; an unterminated comment consumes the rest of the
source and is a lexical error. -/
def blockComment : LexState → Char → List Char → LexState × List Char × Bool
  | st, _, [] => (st, [], true)
  | st, prev, c :: r =>
    if c = '/' ∧ prev = '*' then ({ st with column := st.column + 1 }, r, false)
    else if c = '\n' then blockComment { st with line := st.line + 1, column := 1 } c r
    else blockComment { st with column := st.column + 1 } c r

/-- The content loop of `Lexer::string`: everything up to the closing
quote (`none` when the source ends first). -/
def stringScan : List Char → Option (List Char × List Char)
  | [] => none
  | c :: r =>
    if c = '"' then some ([], r)
    else
      match stringScan r with
      | none => none
      | some (content, rest) => some (c :: content, rest)

/-- Greedy character run, used for digit runs and identifiers. -/
def takeWhileChars (p : Char → Bool) : List Char → List Char × List Char
  | [] => ([], [])
  | c :: r =>
    if p c then
      let (taken, rest) := takeWhileChars p r
      (c :: taken, rest)
    else ([], c :: r)

/-- Rust `is_alpha` (`ilo/lexer`): ASCII alphabetic or `_`. -/
def isAlphaChar (c : Char) : Bool := c.isAlpha || c = '_'

/-- Rust `is_alpha_numeric`. -/
def isAlphaNumericChar (c : Char) : Bool := isAlphaChar c || c.isDigit

/-- Value of a digit run. -/
def digitsToNat : List Char → Nat → Nat
  | [], acc => acc
  | c :: r, acc => digitsToNat r (acc * 10 + (c.toNat - '0'.toNat))

/-- The `parse::<f64>().unwrap()` of `Lexer::number` on
`digits[.digits]`, as the exact rational value (binary64 rounding of
the literal is not modelled; no claim depends on a literal's value). -/
def parseDecimalF64 (intPart fracPart : List Char) : F64 :=
  F64.finite (mkRat (digitsToNat intPart 0 * 10 ^ fracPart.length + digitsToNat fracPart 0)
    (10 ^ fracPart.length))

/-- The keyword table of `Lexer::identifier`. -/
def keywordOrIdentifier (ident : String) : TokenType :=
  if ident = "and" then TokenType.And
  else if ident = "ask" then TokenType.Ask
  else if ident = "boolean" then TokenType.Boolean
  else if ident = "break" then TokenType.Break
  else if ident = "cmd" then TokenType.Cmd
  else if ident = "continue" then TokenType.Continue
  else if ident = "default" then TokenType.Default
  else if ident = "delete" then TokenType.Delete
  else if ident = "else" then TokenType.Else
  else if ident = "empty" then TokenType.Empty
  else if ident = "f" then TokenType.Function
  else if ident = "false" then TokenType.False
  else if ident = "for" then TokenType.For
  else if ident = "if" then TokenType.If
  else if ident = "in" then TokenType.In
  else if ident = "keys" then TokenType.Keys
  else if ident = "match" then TokenType.Match
  else if ident = "number" then TokenType.Number
  else if ident = "or" then TokenType.Or
  else if ident = "out" then TokenType.Out
  else if ident = "return" then TokenType.Return
  else if ident = "size" then TokenType.Size
  else if ident = "string" then TokenType.String
  else if ident = "true" then TokenType.True
  else if ident = "while" then TokenType.While
  else TokenType.Identifier

/-- `Lexer::scan_token` on the advanced character `c` and the remaining
source; returns the new state, the remaining source, and whether this
token reported a lexical error.  Branches follow the Rust `match`
in source order. -/
def scanToken (st : LexState) (c : Char) (rest : List Char) : LexState × List Char × Bool :=
  if c = ' ' ∨ c = '\r' then ({ st with column := st.column + 1 }, rest, false)
  else if c = '\t' then ({ st with column := st.column + 2 }, rest, false)
  else if c = '\n' then (addToken st TokenType.EOL "\n", rest, false)
  else if c = '{' then (addToken st TokenType.LeftBrace "\x7b", rest, false)
  else if c = '}' then (addToken st TokenType.RightBrace "\x7d", rest, false)
  else if c = '[' then (addToken st TokenType.LeftBracket "[", rest, false)
  else if c = ']' then (addToken st TokenType.RightBracket "]", rest, false)
  else if c = ',' then (addToken st TokenType.Comma ",", rest, false)
  else if c = ':' then (addToken st TokenType.Colon ":", rest, false)
  else if c = '?' then (addToken st TokenType.Interrogation "?", rest, false)
  else if c = '(' then (addToken st TokenType.LeftParen "(", rest, false)
  else if c = ')' then (addToken st TokenType.RightParen ")", rest, false)
  else if c = '-' then
    let (mArrow, r₁) := matchChar '>' rest
    if mArrow then (addToken st TokenType.Arrow "->", r₁, false)
    else
      let (mEq, r₂) := matchChar '=' rest
      if mEq then (addToken st TokenType.MinusEqual "-=", r₂, false)
      else
        let (mMinus, r₃) := matchChar '-' rest
        if mMinus then (addToken st TokenType.MinusMinus "--", r₃, false)
        else (addToken st TokenType.Minus "-", rest, false)
  else if c = '!' then
    let (mEq, r₁) := matchChar '=' rest
    if mEq then (addToken st TokenType.BangEqual "!=", r₁, false)
    else (addToken st TokenType.Bang "!", rest, false)
  else if c = '.' then
    let (mDot, r₁) := matchChar '.' rest
    if mDot then
      let (mDot₂, r₂) := matchChar '.' r₁
      if mDot₂ then (addToken st TokenType.DotDotDot "...", r₂, false)
      else (addToken st TokenType.Dot "..", r₁, false)
    else (addToken st TokenType.Dot ".", r₁, false)
  else if c = '=' then
    let (mEq, r₁) := matchChar '=' rest
    if mEq then (addToken st TokenType.EqualEqual "==", r₁, false)
    else (addToken st TokenType.Equal "=", rest, false)
  else if c = '>' then
    let (mEq, r₁) := matchChar '=' rest
    if mEq then (addToken st TokenType.GreaterEqual ">=", r₁, false)
    else (addToken st TokenType.Greater ">", rest, false)
  else if c = '<' then
    let (mEq, r₁) := matchChar '=' rest
    if mEq then (addToken st TokenType.LessEqual "<=", r₁, false)
    else (addToken st TokenType.Less "<", rest, false)
  else if c = '+' then
    let (mEq, r₁) := matchChar '=' rest
    if mEq then (addToken st TokenType.PlusEqual "+=", r₁, false)
    else
      let (mPlus, r₂) := matchChar '+' rest
      if mPlus then (addToken st TokenType.PlusPlus "++", r₂, false)
      else (addToken st TokenType.Plus "+", rest, false)
  else if c = '/' then
    let (mSlash, r₁) := matchChar '/' rest
    if mSlash then
      let (st', r') := lineComment { st with column := st.column + 2 } r₁
      (st', r', false)
    else
      let (mStar, r₂) := matchChar '*' rest
      if mStar then blockComment { st with column := st.column + 2 } '*' r₂
      else
        let (mEq, r₃) := matchChar '=' rest
        if mEq then (addToken st TokenType.SlashEqual "/=", r₃, false)
        else (addToken st TokenType.Slash "/", rest, false)
  else if c = '*' then
    let (mEq, r₁) := matchChar '=' rest
    if mEq then (addToken st TokenType.StarEqual "*=", r₁, false)
    else (addToken st TokenType.Star "*", rest, false)
  else if c = '^' then
    let (mEq, r₁) := matchChar '=' rest
    if mEq then (addToken st TokenType.CaretEqual "^=", r₁, false)
    else (addToken st TokenType.Caret "^", rest, false)
  else if c = '%' then
    let (mEq, r₁) := matchChar '=' rest
    if mEq then (addToken st TokenType.PercentEqual "%=", r₁, false)
    else (addToken st TokenType.Percent "%", rest, false)
  else if c = '"' then
    match stringScan rest with
    | some (content, r') =>
      (addToken st (TokenType.StringLiteral (String.mk content))
        (String.mk ('"' :: (content ++ ['"']))), r', false)
    | none => (st, [], true)
  else if c.isDigit then
    let (intDigits, r₁) := takeWhileChars Char.isDigit rest
    let noFrac := (addToken st
      (TokenType.NumberLiteral (parseDecimalF64 (c :: intDigits) []))
      (String.mk (c :: intDigits)), r₁, false)
    match r₁ with
    | dot :: d :: _ =>
      if dot = '.' ∧ d.isDigit then
        let (fracDigits, r₃) := takeWhileChars Char.isDigit (r₁.tail)
        (addToken st
          (TokenType.NumberLiteral (parseDecimalF64 (c :: intDigits) fracDigits))
          (String.mk (c :: intDigits ++ '.' :: fracDigits)), r₃, false)
      else noFrac
    | _ => noFrac
  else if isAlphaChar c then
    let (identChars, r₁) := takeWhileChars isAlphaNumericChar rest
    let ident := String.mk (c :: identChars)
    (addToken st (keywordOrIdentifier ident) ident, r₁, false)
  else ({ st with column := st.column + 1 }, rest, true)

/-- The `EOF` token pushed at the end of `Lexer::scan_tokens`. -/
def eofToken (st : LexState) : Token := ⟨TokenType.EOF, "", st.line, st.column⟩

/-- The scanning loop of `Lexer::scan_tokens` (fuel-indexed; one unit of
fuel per `scan_token` call, and each call consumes at least one
character, so `source.length + 1` units always suffice). -/
def scanLoop : Nat → LexState → List Char → Bool → List Token × Bool
  | 0, st, _, hasError => (st.tokens ++ [eofToken st], hasError)
  | Nat.succ _, st, [], hasError => (st.tokens ++ [eofToken st], hasError)
  | Nat.succ f, st, c :: rest, hasError =>
    let (st', rest', e) := scanToken st c rest
    scanLoop f st' rest' (hasError || e)

/-- `Lexer::scan_tokens` on a character list: the token list (always
ending in the single `EOF` token) and the `has_error` flag (Rust
returns `Err` when it is set). -/
def scanTokens (source : List Char) : List Token × Bool :=
  scanLoop (source.length + 1) ⟨[], 1, 1⟩ source false

/-- Number of `EOL` tokens in a token list. -/
def eolCount (tokens : List Token) : Nat :=
  tokens.countP (fun t => t.tokenType == TokenType.EOL)

/-- Number of `EOF` tokens in a token list. -/
def eofCount (tokens : List Token) : Nat :=
  tokens.countP (fun t => t.tokenType == TokenType.EOF)

/-- Scanning mode of the reference newline counter
`newlinesOutside`. -/
inductive LexMode where
  | normal
  | inString
  | inLineComment
  | inBlockComment (prev : Char)

/-- Reference count, following the spec's wording, of the newlines of a
source that lie outside string literals and outside block comments
(the newline that terminates a `//` comment is outside the comment:
the lexer leaves it to be scanned as an `EOL`).  String literals open
at any `"` in normal mode and close at the next `"`; a block comment
closes at a `/` whose preceding character is `*` (so `/*/` closes
immediately, as in `Lexer::scan_token`). -/
def newlinesOutside : LexMode → List Char → Nat
  | _, [] => 0
  | LexMode.normal, c :: r =>
    if c = '"' then newlinesOutside LexMode.inString r
    else if c = '\n' then newlinesOutside LexMode.normal r + 1
    else if c = '/' then
      match r with
      | c₂ :: r₂ =>
        if c₂ = '/' then newlinesOutside LexMode.inLineComment r₂
        else if c₂ = '*' then newlinesOutside (LexMode.inBlockComment '*') r₂
        else newlinesOutside LexMode.normal (c₂ :: r₂)
      | [] => 0
    else newlinesOutside LexMode.normal r
  | LexMode.inString, c :: r =>
    if c = '"' then newlinesOutside LexMode.normal r
    else newlinesOutside LexMode.inString r
  | LexMode.inLineComment, c :: r =>
    if c = '\n' then newlinesOutside LexMode.normal r + 1
    else newlinesOutside LexMode.inLineComment r
  | LexMode.inBlockComment prev, c :: r =>
    if c = '/' ∧ prev = '*' then newlinesOutside LexMode.normal r
    else newlinesOutside (LexMode.inBlockComment c) r

/-! Concrete tokens, expressions and programs used as inputs by the
theorems below. -/

/-- A token at position 1:1 (positions are irrelevant to the
interpreter's semantics). -/
def tkn (tokenType : TokenType) (lexeme : String) : Token := ⟨tokenType, lexeme, 1, 1⟩

/-- An identifier token. -/
def identToken (name : String) : Token := tkn TokenType.Identifier name

/-- A number-literal token with a finite value. -/
def numberToken (q : ℚ) : Token := tkn (TokenType.NumberLiteral (F64.finite q)) ""

/-- A string-literal token. -/
def stringToken (s : String) : Token := tkn (TokenType.StringLiteral s) s

/-- The `empty` keyword token. -/
def emptyToken : Token := tkn TokenType.Empty "empty"

/-- An end-of-line token. -/
def eolToken : Token := tkn TokenType.EOL "\n"

/-- An end-of-file token (parser input). -/
def eofTk : Token := tkn TokenType.EOF ""

/-- The `==` operator token. -/
def eqeqToken : Token := tkn TokenType.EqualEqual "=="

/-- The `!=` operator token. -/
def bangEqToken : Token := tkn TokenType.BangEqual "!="

/-- The `*` operator token. -/
def starToken : Token := tkn TokenType.Star "*"

/-- The `+` operator token. -/
def plusToken : Token := tkn TokenType.Plus "+"

/-- A number-literal expression. -/
def numberLit (q : ℚ) : Expr := Expr.primary (numberToken q)

/-- A string-literal expression. -/
def stringLit (s : String) : Expr := Expr.primary (stringToken s)

/-- A bare `empty` expression. -/
def emptyLit : Expr := Expr.primary emptyToken

/-- A zero-argument call of a named function. -/
def callByName (name : String) : Expr :=
  Expr.call (Expr.var (identToken name)) (tkn TokenType.RightParen ")") []

/-- `d` nested blocks around `return 7`: the body statement of a
function exercising `return`-unwinding through arbitrarily many
enclosing blocks. -/
def nestedReturnBody : Nat → Statement
  | 0 => Statement.ret (numberLit 7)
  | Nat.succ d => Statement.block [nestedReturnBody d]

/-- The program `f g() { { { return 1 } } }` followed by `g()` and a
top-level `return 5` (as the interpreter receives it, a statement
list). -/
def leakProgram : List Statement :=
  [ Statement.functionDeclaration (identToken "g") []
      [Statement.block [Statement.block [Statement.ret (numberLit 1)]]]
  , Statement.expr (callByName "g")
  , Statement.ret (numberLit 5) ]

/-- The program `s = "hi"` followed by `s = empty`. -/
def emptyResetProgram : List Statement :=
  [ Statement.assignment (identToken "s") (stringLit "hi")
  , Statement.assignment (identToken "s") emptyLit ]

/-- The program `y = 1`, `x = 2`, `f g() { y = 7` `return "s" }`,
`x = g()`: the final assignment fails with a Type error after its
right-hand side has already reassigned `y`. -/
def sideEffectAssignProgram : List Statement :=
  [ Statement.assignment (identToken "y") (numberLit 1)
  , Statement.assignment (identToken "x") (numberLit 2)
  , Statement.functionDeclaration (identToken "g") []
      [ Statement.assignment (identToken "y") (numberLit 7)
      , Statement.ret (stringLit "s") ]
  , Statement.assignment (identToken "x") (callByName "g") ]

/-! Helper lemmas. -/

/-- Looking up a key just inserted finds the inserted value. -/
theorem lookupMap_insertMap_self (m : List (String × Value)) (name : String) (v : Value) :
    lookupMap (insertMap m name v) name = some v := by
  induction m with
  | nil => simp [insertMap, lookupMap]
  | cons kw rest ih =>
    obtain ⟨k, w⟩ := kw
    by_cases hk : k = name
    · simp [insertMap, hk, lookupMap]
    · simp [insertMap, hk, lookupMap, ih]

/-- A name bound nowhere makes the assignment loop report `notFound`. -/
theorem assignExisting_notFound (name : String) (value : Value) :
    ∀ scopes : List Scope, envGet scopes name = none →
      assignExisting scopes name value = AssignResult.notFound := by
  intro scopes
  induction scopes with
  | nil => intro _; rfl
  | cons s rest ih =>
    intro h
    cases hl : lookupMap s.map name with
    | some w => simp [envGet, hl] at h
    | none =>
      have hrest : envGet rest name = none := by simpa [envGet, hl] using h
      simp [assignExisting, hl, ih hrest]

/-- The assignment loop on a function value against an existing binding
of a different type reports `InvalidType` with the current value. -/
theorem assignExisting_fn_mismatch (name fname : String) (fargs : List String)
    (fbody : List Statement) :
    ∀ (scopes : List Scope) (v : Value) (t : String),
      envGet scopes name = some v → Value.getType v = some t →
      t ≠ "function(" ++ toString fargs.length ++ ")" →
      assignExisting scopes name (Value.function fname fargs fbody) =
        AssignResult.err (EnvError.invalidType v) := by
  intro scopes
  induction scopes with
  | nil => intro v t h; simp [envGet] at h
  | cons s rest ih =>
    intro v t hget htype hne
    cases hl : lookupMap s.map name with
    | some w =>
      have hv : w = v := by simpa [envGet, hl] using hget
      subst hv
      simp only [assignExisting, hl]
      rw [htype]
      simp [Value.getType, hne]
    | none =>
      have hrest : envGet rest name = some v := by simpa [envGet, hl] using hget
      simp [assignExisting, hl, ih v t hrest htype hne]

/-- The assignment loop on a function value against an existing binding
of the same `function(N)` type replaces that binding in place. -/
theorem assignExisting_fn_match (name fname : String) (fargs : List String)
    (fbody : List Statement) :
    ∀ (scopes : List Scope) (v : Value),
      envGet scopes name = some v →
      Value.getType v = some ("function(" ++ toString fargs.length ++ ")") →
      ∃ scopes', assignExisting scopes name (Value.function fname fargs fbody) =
          AssignResult.updated scopes'
        ∧ envGet scopes' name = some (Value.function fname fargs fbody) := by
  intro scopes
  induction scopes with
  | nil => intro v h; simp [envGet] at h
  | cons s rest ih =>
    intro v hget htype
    cases hl : lookupMap s.map name with
    | some w =>
      have hv : w = v := by simpa [envGet, hl] using hget
      subst hv
      refine ⟨{ s with map := insertMap s.map name (Value.function fname fargs fbody) } :: rest,
        ?_, ?_⟩
      · simp only [assignExisting, hl]
        rw [htype]
        simp [Value.getType]
      · simp [envGet, lookupMap_insertMap_self]
    | none =>
      have hrest : envGet rest name = some v := by simpa [envGet, hl] using hget
      obtain ⟨rest', hup, hlook⟩ := ih v hrest htype
      refine ⟨s :: rest', ?_, ?_⟩
      · simp [assignExisting, hl, hup]
      · simp [envGet, hl, hlook]

/-! Claim C2. -/

/-- Claim C2 (code bug): executing `f g() { { { return 1 } } }` then
`g()` leaves the interpreter with two scope frames instead of one — the
function frame (flag set) leaks because `execute_block` propagates the
`Return` with `?` before reaching `leave_scope` — and a subsequent
top-level `return 5` is then accepted and yields `5` instead of the
`Illegal use of return` Runtime error. -/
theorem scope_leak_on_nested_return :
    (interpret 50 interpreterNew leakProgram).map Prod.snd =
      some (Outcome.ok (Value.number (F64.finite 5)))
    ∧ (interpret 50 interpreterNew leakProgram).map (fun p => p.1.scopes.length) = some 2
    ∧ (interpret 50 interpreterNew leakProgram).map
        (fun p => p.1.scopes.head?.map Scope.function) = some (some true)
    ∧ interpreterNew.scopes.length = 1 := ⟨rfl, rfl, rfl, rfl⟩

/-! Claim C3. -/

/-- Claim C3, counterexample: a `while` statement whose condition
evaluates to `Number(1)` — not a Boolean — terminates normally with no
Type error, refuting "the condition must evaluate to a Boolean value on
every iteration … otherwise a Type error". -/
theorem while_number_condition_no_error :
    executeWhile 2 Environment.new (numberLit 1) (Statement.block []) =
      some (Environment.new, Outcome.ok (Value.string "")) := rfl

/-- Claim C3 (amended): the `while` body runs as long as the condition
evaluates to `Boolean(true)`; a condition evaluating to any other value
— including a non-Boolean such as a Number — simply ends the loop with
the normal `String("")` result and no error. -/
theorem while_condition_semantics :
    (∀ (f : Nat) (env env' : Environment) (condition : Expr) (body : Statement) (v : Value),
      evaluate f env condition = some (env', Outcome.ok v) →
      v ≠ Value.boolean true →
      executeWhile (f + 1) env condition body = some (env', Outcome.ok (Value.string "")))
    ∧ (∀ (f : Nat) (env env' : Environment) (condition : Expr) (body : Statement),
      evaluate f env condition = some (env', Outcome.ok (Value.boolean true)) →
      executeWhile (f + 1) env condition body =
        match execute f env' body with
        | none => none
        | some (env'', Outcome.ok _) => executeWhile f env'' condition body
        | some (env'', o) => some (env'', o)) := by
  constructor
  · intro f env env' condition body v hev hne
    cases v with
    | boolean b =>
      cases b with
      | false => simp only [executeWhile, hev]
      | true => exact absurd rfl hne
    | empty => simp only [executeWhile, hev]
    | emptyBoolean => simp only [executeWhile, hev]
    | emptyNumber => simp only [executeWhile, hev]
    | number n => simp only [executeWhile, hev]
    | string s => simp only [executeWhile, hev]
    | function name args body' => simp only [executeWhile, hev]
    | nativeFunction name args tag => simp only [executeWhile, hev]
  · intro f env env' condition body hev
    simp only [executeWhile, hev]

/-- Claim C3, witness for the amended theorem at a Boolean `true`
condition and a `Number` condition. -/
theorem while_condition_semantics_witness :
    executeWhile 3 Environment.new (numberLit 2) (Statement.block []) =
      some (Environment.new, Outcome.ok (Value.string ""))
    ∧ executeWhile 2 Environment.new (Expr.primary (tkn TokenType.False "false"))
        (Statement.block []) = some (Environment.new, Outcome.ok (Value.string "")) := by
  constructor
  · exact while_condition_semantics.1 2 Environment.new Environment.new (numberLit 2)
      (Statement.block []) (Value.number (F64.finite 2)) rfl (by intro h; cases h)
  · exact while_condition_semantics.1 1 Environment.new Environment.new
      (Expr.primary (tkn TokenType.False "false")) (Statement.block [])
      (Value.boolean false) rfl (by intro h; cases h)

/-! Claim C4. -/

/-- Claim C4 (code bug): assigning untyped `empty` to a name bound to a
`String` reaches the `unreachable!` in `Value::as_empty` and aborts the
interpreter with a host panic (`s = "hi"` then `s = empty`); the
`as_empty` collapse is likewise a panic for `Function` and
`NativeFunction` bindings. -/
theorem empty_reset_panics :
    (interpret 20 interpreterNew emptyResetProgram).map Prod.snd = some Outcome.panic
    ∧ (∀ s, Value.asEmpty (Value.string s) = none)
    ∧ (∀ name args body, Value.asEmpty (Value.function name args body) = none)
    ∧ (∀ name args tag, Value.asEmpty (Value.nativeFunction name args tag) = none) :=
  ⟨rfl, fun _ => rfl, fun _ _ _ => rfl, fun _ _ _ => rfl⟩

/-! Claim C5. -/

/-- Claim C5, counterexample: `f out(x) { }` executed against the
initial environment — where `out` is the pre-registered unary native —
succeeds and silently replaces the native binding, refuting
"redeclaring any already-existing name with a function declaration is a
Type error". -/
theorem fn_redeclaration_out_succeeds :
    (executeFunctionDeclaration 1 interpreterNew (identToken "out")
        [identToken "x"] []).map Prod.snd = some (Outcome.ok Value.empty)
    ∧ (executeFunctionDeclaration 1 interpreterNew (identToken "out")
        [identToken "x"] []).map (fun p => p.1.get "out") =
      some (some (Value.function "out" ["x"] [])) := ⟨rfl, rfl⟩

/-- Claim C5 (amended): a function declaration is a Type error exactly
when the name is already bound to a value whose type differs from
`function(N)` (N the parameter count); an existing binding of the same
`function(N)` type — including the pre-registered natives — is silently
replaced in the frame where it lives; an unbound name is created in the
innermost frame. -/
theorem fn_declaration_semantics :
    (∀ (f : Nat) (env : Environment) (ident : Token) (params : List Token)
        (body : List Statement) (v : Value) (t : String),
      env.get ident.lexeme = some v → Value.getType v = some t →
      t ≠ "function(" ++ toString params.length ++ ")" →
      executeFunctionDeclaration (f + 1) env ident params body =
        some (env, Outcome.error ErrorType.typeError))
    ∧ (∀ (f : Nat) (env : Environment) (ident : Token) (params : List Token)
        (body : List Statement) (v : Value),
      env.get ident.lexeme = some v →
      Value.getType v = some ("function(" ++ toString params.length ++ ")") →
      ∃ env', executeFunctionDeclaration (f + 1) env ident params body =
          some (env', Outcome.ok Value.empty)
        ∧ env'.get ident.lexeme =
            some (Value.function ident.lexeme (params.map Token.lexeme) body))
    ∧ (∀ (f : Nat) (env : Environment) (ident : Token) (params : List Token)
        (body : List Statement) (s : Scope) (rest : List Scope),
      env.get ident.lexeme = none → env.scopes = s :: rest →
      executeFunctionDeclaration (f + 1) env ident params body =
        some (⟨({ s with map := insertMap s.map ident.lexeme (Value.function ident.lexeme (params.map Token.lexeme) body) } : Scope) :: rest⟩,
          Outcome.ok Value.empty)) := by
  refine ⟨?_, ?_, ?_⟩
  · intro f env ident params body v t hget htype hne
    have h := assignExisting_fn_mismatch ident.lexeme ident.lexeme
      (params.map Token.lexeme) body env.scopes v t hget (by simpa using htype)
      (by simpa [List.length_map] using hne)
    simp only [executeFunctionDeclaration, defineOrAssign]
    simp [h]
  · intro f env ident params body v hget htype
    obtain ⟨scopes', hup, hlook⟩ := assignExisting_fn_match ident.lexeme ident.lexeme
      (params.map Token.lexeme) body env.scopes v hget (by simpa [List.length_map] using htype)
    refine ⟨⟨scopes'⟩, ?_, ?_⟩
    · simp only [executeFunctionDeclaration, defineOrAssign]
      simp [hup]
    · simpa [Environment.get] using hlook
  · intro f env ident params body s rest hget hscopes
    have h := assignExisting_notFound ident.lexeme
      (Value.function ident.lexeme (params.map Token.lexeme) body) env.scopes hget
    rw [hscopes] at h
    simp only [executeFunctionDeclaration, defineOrAssign]
    simp [h, hscopes]

/-- Claim C5, witness: redeclaring `f dup(x) { }` as `f dup() { }` is a
Type error (arity changes the type); redeclaring it as `f dup(y) { }`
succeeds and rebinds; declaring a fresh name binds it in the innermost
frame. -/
theorem fn_declaration_semantics_witness :
    executeFunctionDeclaration 1 ⟨[⟨[("dup", Value.function "dup" ["x"] [])], false⟩]⟩
        (identToken "dup") [] [] =
      some (⟨[⟨[("dup", Value.function "dup" ["x"] [])], false⟩]⟩,
        Outcome.error ErrorType.typeError)
    ∧ (∃ env', executeFunctionDeclaration 1
          ⟨[⟨[("dup", Value.function "dup" ["x"] [])], false⟩]⟩
          (identToken "dup") [identToken "y"] [] = some (env', Outcome.ok Value.empty)
        ∧ env'.get "dup" = some (Value.function "dup" ["y"] []))
    ∧ executeFunctionDeclaration 1 Environment.new (identToken "h") [] [] =
      some (⟨[⟨[("h", Value.function "h" [] [])], false⟩]⟩, Outcome.ok Value.empty) := by
  refine ⟨?_, ?_, ?_⟩
  · exact fn_declaration_semantics.1 0 _ (identToken "dup") [] []
      (Value.function "dup" ["x"] []) "function(1)" rfl rfl (by decide)
  · exact fn_declaration_semantics.2.1 0 _ (identToken "dup") [identToken "y"] []
      (Value.function "dup" ["x"] []) rfl rfl
  · exact fn_declaration_semantics.2.2 0 Environment.new (identToken "h") [] []
      ⟨[], false⟩ [] rfl rfl

/-! Claim C7. -/

/-- Claim C7, counterexample: at the f64 value NaN — which the claim's
quantifier includes — `v == v` evaluates to `Boolean(false)` and
`v != v` to `Boolean(true)`, refuting the claim for the Number case. -/
theorem eq_self_nan_counterexample :
    evaluateEquality (Value.number F64.nan) eqeqToken (Value.number F64.nan) =
      Outcome.ok (Value.boolean false)
    ∧ evaluateEquality (Value.number F64.nan) bangEqToken (Value.number F64.nan) =
      Outcome.ok (Value.boolean true) := ⟨rfl, rfl⟩

/-- Claim C7 (amended): for every Boolean and String value, and every
Number whose payload is not NaN, `v == v` evaluates to `Boolean(true)`
and `v != v` to `Boolean(false)`. -/
theorem eq_self_reflexive :
    ∀ (b : Bool) (s : String) (x : F64), x ≠ F64.nan →
      evaluateEquality (Value.boolean b) eqeqToken (Value.boolean b) =
        Outcome.ok (Value.boolean true)
      ∧ evaluateEquality (Value.boolean b) bangEqToken (Value.boolean b) =
        Outcome.ok (Value.boolean false)
      ∧ evaluateEquality (Value.string s) eqeqToken (Value.string s) =
        Outcome.ok (Value.boolean true)
      ∧ evaluateEquality (Value.string s) bangEqToken (Value.string s) =
        Outcome.ok (Value.boolean false)
      ∧ evaluateEquality (Value.number x) eqeqToken (Value.number x) =
        Outcome.ok (Value.boolean true)
      ∧ evaluateEquality (Value.number x) bangEqToken (Value.number x) =
        Outcome.ok (Value.boolean false) := by
  intro b s x hx
  have hbeq : F64.beq x x = true := by
    match x with
    | F64.nan => exact absurd rfl hx
    | F64.inf => rfl
    | F64.neginf => rfl
    | F64.finite q => simp [F64.beq]
  refine ⟨?_, ?_, ?_, ?_, ?_, ?_⟩ <;>
    simp [evaluateEquality, eqeqToken, bangEqToken, tkn, hbeq]

/-- Claim C7, witness at `true`, `"a"` and the number `0`. -/
theorem eq_self_reflexive_witness :
    evaluateEquality (Value.boolean true) eqeqToken (Value.boolean true) =
      Outcome.ok (Value.boolean true)
    ∧ evaluateEquality (Value.string "a") eqeqToken (Value.string "a") =
      Outcome.ok (Value.boolean true)
    ∧ evaluateEquality (Value.number (F64.finite 0)) bangEqToken
        (Value.number (F64.finite 0)) = Outcome.ok (Value.boolean false) := by
  have h := eq_self_reflexive true "a" (F64.finite 0) (by decide)
  exact ⟨h.1, h.2.2.1, h.2.2.2.2.2⟩

/-! Claim C10. -/

/-- Claim C10, counterexample: in the program `y = 1`, `x = 2`,
`f g() { y = 7` `return "s" }`, `x = g()`, the final assignment fails
with a Type error, yet `y` — bound to `1` when the statement began —
ends bound to `7`: the right-hand side's side effects persist, so the
failed assignment is not atomic with respect to the environment. -/
theorem failed_assign_side_effects_counterexample :
    (interpret 50 interpreterNew (sideEffectAssignProgram.take 3)).map
        (fun p => p.1.get "y") = some (some (Value.number (F64.finite 1)))
    ∧ (interpret 50 interpreterNew sideEffectAssignProgram).map Prod.snd =
      some (Outcome.error ErrorType.typeError)
    ∧ (interpret 50 interpreterNew sideEffectAssignProgram).map (fun p => p.1.get "y") =
      some (some (Value.number (F64.finite 7))) := ⟨rfl, rfl, rfl⟩

/-- Claim C10 (amended): when an assignment fails with a Type error
because the name is bound to a value of a different type, the
environment after the statement is exactly the environment after
evaluating the right-hand side — the failed `define_or_assign` writes
nothing and changes no frame — but side effects of the right-hand-side
evaluation itself do persist. -/
theorem failed_assignment_leaves_rhs_env :
    ∀ (f : Nat) (env env' : Environment) (ident : Token) (e : Expr) (v cur : Value),
      evaluate f env e = some (env', Outcome.ok v) →
      defineOrAssign env' ident.lexeme v false =
        some (Except.error (EnvError.invalidType cur)) →
      executeAssignment (f + 1) env ident e = some (env', Outcome.error ErrorType.typeError) := by
  intro f env env' ident e v cur hev hdef
  simp only [executeAssignment, hev, hdef]

/-- Claim C10, witness: assigning `2` to a name bound to a string fails
with a Type error and leaves the environment of the right-hand side. -/
theorem failed_assignment_leaves_rhs_env_witness :
    executeAssignment 2 ⟨[⟨[("x", Value.string "a")], false⟩]⟩ (identToken "x") (numberLit 2) =
      some (⟨[⟨[("x", Value.string "a")], false⟩]⟩, Outcome.error ErrorType.typeError) := by
  exact failed_assignment_leaves_rhs_env 1 _ _ (identToken "x") (numberLit 2)
    (Value.number (F64.finite 2)) (Value.string "a") rfl rfl

/-! Claim C1. -/

/-- Unwinding lemma: inside any environment that has a function frame,
the block-statement loop on `d` nested blocks around `return 7` always
delivers the value `7`, either as the pending result of a directly
enclosed `Return` (`d = 0`) or as an early `Return` exit (`d ≥ 1`). -/
theorem nestedReturn_blockStmts (d : Nat) :
    ∀ (extra : Nat) (env : Environment), env.scopes ≠ [] →
      env.scopes.any Scope.function = true →
      ∃ env' X, executeBlockStmts (3 * d + 3 + extra) env [nestedReturnBody d] = some (env', X)
        ∧ (X = BlockExit.done (some (Value.number (F64.finite 7)))
          ∨ X = BlockExit.early (Outcome.ret (Value.number (F64.finite 7)))) := by
  induction d with
  | zero =>
    intro extra env hne hfn
    refine ⟨env, BlockExit.done (some (Value.number (F64.finite 7))), ?_, Or.inl rfl⟩
    have h1 : 3 * 0 + 3 + extra = 2 + extra + 1 := by omega
    rw [h1]
    simp only [nestedReturnBody, executeBlockStmts]
    have h2 : 2 + extra = extra + 1 + 1 := by omega
    rw [h2]
    simp only [executeReturn, hfn, if_true]
    simp [evaluate, numberLit, numberToken, tkn, evaluatePrimary]
  | succ d ih =>
    intro extra env hne hfn
    obtain ⟨top, restScopes, hsc⟩ : ∃ s r, env.scopes = s :: r := by
      cases h : env.scopes with
      | nil => exact absurd h hne
      | cons s r => exact ⟨s, r, rfl⟩
    have hfn₁ : (env.enterScope top.function).scopes.any Scope.function = true := by
      simp [Environment.enterScope, List.any_cons, hfn]
    obtain ⟨env', X, hrun, hX⟩ := ih extra (env.enterScope top.function)
      (by simp [Environment.enterScope]) hfn₁
    have hblock : executeBlock (3 * d + 3 + extra + 1) env [nestedReturnBody d] true =
        some (match X with
          | BlockExit.early o => (env', o)
          | BlockExit.done (some v) => (env'.leaveScope, Outcome.ret v)
          | BlockExit.done none => (env'.leaveScope, Outcome.ok Value.empty)) := by
      simp only [executeBlock, hsc, if_true, hrun]
      rcases hX with h | h <;> subst h <;> rfl
    have h1 : 3 * (d + 1) + 3 + extra = ((3 * d + 3 + extra + 1) + 1) + 1 := by omega
    rw [h1]
    simp only [nestedReturnBody, executeBlockStmts, execute]
    rw [hblock]
    rcases hX with h | h <;> subst h
    · exact ⟨env'.leaveScope, _, rfl, Or.inr rfl⟩
    · exact ⟨env', _, rfl, Or.inr rfl⟩

/-- Claim C1: a `return` is legal exactly when some frame of the scope
stack has its function flag set — otherwise it is the reported Runtime
error and the environment is untouched; when legal it evaluates its
expression; calling a user function whose body is `return 7` wrapped in
any number `d` of nested blocks delivers `7` as the call's result; and
a call whose body completes normally (no `return` taken) delivers the
untyped `Empty` value. -/
theorem return_unwinding_semantics :
    (∀ (f : Nat) (env : Environment) (e : Expr),
      env.scopes.any Scope.function = false →
      executeReturn (f + 1) env e = some (env, Outcome.error ErrorType.runtimeError))
    ∧ (∀ (f : Nat) (env : Environment) (e : Expr),
      env.scopes.any Scope.function = true →
      executeReturn (f + 1) env e = evaluate f env e)
    ∧ (∀ (d extra : Nat) (env : Environment) (name : String),
      ∃ env', callValue (3 * d + 6 + extra) env
          (Value.function name [] [nestedReturnBody d]) [] [] =
        some (env', Outcome.ok (Value.number (F64.finite 7))))
    ∧ (∀ (f : Nat) (env env' : Environment) (name : String) (body : List Statement) (w : Value),
      executeBlock f (env.enterScope true) body false = some (env', Outcome.ok w) →
      callValue (f + 1) env (Value.function name [] body) [] [] =
        some (env'.leaveScope, Outcome.ok Value.empty)) := by
  refine ⟨?_, ?_, ?_, ?_⟩
  · intro f env e hfn
    simp [executeReturn, hfn]
  · intro f env e hfn
    simp [executeReturn, hfn]
  · intro d extra env name
    obtain ⟨env', X, hrun, hX⟩ := nestedReturn_blockStmts d (extra + 1) (env.enterScope true)
      (by simp [Environment.enterScope]) (by simp [Environment.enterScope, Scope.mk'])
    have harith : 3 * d + 6 + extra = ((3 * d + 3 + (extra + 1)) + 1) + 1 := by omega
    rw [harith]
    simp only [callValue, bindArgs]
    have hblock : executeBlock ((3 * d + 3 + (extra + 1)) + 1) (env.enterScope true)
        [nestedReturnBody d] false =
        some (match X with
          | BlockExit.early o => (env', o)
          | BlockExit.done (some v) => (env', Outcome.ret v)
          | BlockExit.done none => (env', Outcome.ok Value.empty)) := by
      simp only [executeBlock, Bool.false_eq_true, if_false, hrun]
      rcases hX with h | h <;> subst h <;> rfl
    rw [hblock]
    rcases hX with h | h <;> subst h
    · exact ⟨env'.leaveScope, rfl⟩
    · exact ⟨env'.leaveScope, rfl⟩
  · intro f env env' name body w hbody
    cases f with
    | zero => simp [executeBlock] at hbody
    | succ g =>
      simp only [callValue, bindArgs, hbody]

/-- Claim C1, witness: top-level `return` is the Runtime error; inside a
function scope `return` evaluates its expression; a call with the
`return` nested under two blocks yields `7`; a body without `return`
yields `Empty`. -/
theorem return_unwinding_semantics_witness :
    executeReturn 1 Environment.new (numberLit 7) =
      some (Environment.new, Outcome.error ErrorType.runtimeError)
    ∧ executeReturn 2 (Environment.new.enterScope true) (numberLit 7) =
      evaluate 1 (Environment.new.enterScope true) (numberLit 7)
    ∧ (∃ env', callValue 12 Environment.new
        (Value.function "g" [] [nestedReturnBody 2]) [] [] =
      some (env', Outcome.ok (Value.number (F64.finite 7))))
    ∧ callValue 5 Environment.new
        (Value.function "h" [] [Statement.expr (numberLit 3)]) [] [] =
      some ((Environment.new.enterScope true).leaveScope, Outcome.ok Value.empty) := by
  refine ⟨?_, ?_, ?_, ?_⟩
  · exact return_unwinding_semantics.1 0 Environment.new (numberLit 7) rfl
  · exact return_unwinding_semantics.2.1 1 (Environment.new.enterScope true) (numberLit 7) rfl
  · exact return_unwinding_semantics.2.2.1 2 0 Environment.new "g"
  · exact return_unwinding_semantics.2.2.2 4 Environment.new (Environment.new.enterScope true)
      "h" [Statement.expr (numberLit 3)] (Value.empty) rfl

/-! Helper lemmas for claim C8. -/

/-- Floor of an integer plus one half. -/
theorem floor_int_add_half (m : ℤ) : ⌊(m : ℚ) + 1/2⌋ = m := by
  rw [add_comm, Int.floor_add_int]
  norm_num

/-- Round-half-away-from-zero fixes the integers. -/
theorem rqround_intCast (n : ℤ) : F64.rqround ((n : ℤ) : ℚ) = n := by
  unfold F64.rqround
  by_cases h : ((n : ℤ) : ℚ) < 0
  · rw [if_pos h]
    have hcast : (-((n : ℤ) : ℚ) + 1/2) = (((-n : ℤ) : ℚ)) + 1/2 := by push_cast; ring
    rw [hcast, floor_int_add_half]
    omega
  · rw [if_neg h, floor_int_add_half]

/-- A rational with denominator 1 is the cast of its numerator. -/
theorem num_cast_of_den_one (q : ℚ) (h : q.den = 1) : ((q.num : ℤ) : ℚ) = q := by
  have hq := Rat.num_div_den q
  rw [h] at hq
  simpa using hq

/-- Rounding fixes the rationals with denominator 1. -/
theorem rqround_den_one (q : ℚ) (h : q.den = 1) : ((F64.rqround q : ℤ) : ℚ) = q := by
  conv_lhs => rw [← num_cast_of_den_one q h]
  rw [rqround_intCast]
  exact num_cast_of_den_one q h

/-- Only rationals with denominator 1 are fixed by rounding. -/
theorem den_one_of_rqround_eq (q : ℚ) (h : ((F64.rqround q : ℤ) : ℚ) = q) : q.den = 1 := by
  rw [← h]
  exact Rat.den_intCast _

/-- The IEEE round-check of the string-times-number branch passes
exactly on denominator-1 rationals: the `beq` of `fround` against the
operand itself. -/
theorem fround_beq_den_one (q : ℚ) (h : q.den = 1) :
    F64.beq (F64.fround (F64.finite q)) (F64.finite q) = true := by
  simp [F64.fround, F64.beq, rqround_den_one q h]

/-- The round-check fails on every non-integral rational. -/
theorem fround_beq_den_ne (q : ℚ) (h : q.den ≠ 1) :
    F64.beq (F64.fround (F64.finite q)) (F64.finite q) = false := by
  simp only [F64.fround, F64.beq]
  rw [beq_eq_false_iff_ne]
  intro heq
  exact h (den_one_of_rqround_eq q heq)

/-- Truncation toward zero fixes the integers. -/
theorem qtrunc_intCast (n : ℤ) : F64.qtrunc ((n : ℤ) : ℚ) = n := by
  unfold F64.qtrunc
  by_cases h : ((n : ℤ) : ℚ) < 0
  · rw [if_pos h]
    have hcast : (-((n : ℤ) : ℚ)) = (((-n : ℤ) : ℚ)) := by push_cast; ring
    rw [hcast, Int.floor_intCast]
    omega
  · rw [if_neg h, Int.floor_intCast]

/-- The saturating `as i64` cast on a denominator-1 rational clamps its
numerator to the `i64` range. -/
theorem ftoI64_den_one (q : ℚ) (h : q.den = 1) :
    F64.ftoI64 (F64.finite q) = max (-(2 ^ 63)) (min (2 ^ 63 - 1) q.num) := by
  have ht : F64.qtrunc q = q.num := by
    conv_lhs => rw [← num_cast_of_den_one q h]
    exact qtrunc_intCast q.num
  simp [F64.ftoI64, ht]

/-- Length of the repetition loop's result. -/
theorem strRepeat_length (s : String) : ∀ n, (strRepeat s n).length = n * s.length := by
  intro n
  induction n with
  | zero => simp [strRepeat]
  | succ n ih => simp [strRepeat, String.length_append, ih]; ring

/-! Claim C8. -/

/-- Claim C8 (amended): `s + s'` concatenates; `s * n` passes the
round-check exactly when `n` is integral (or ±∞; NaN fails it), then
casts `n` with the saturating `as i64`: a negative result is the
Runtime error, otherwise the result is `min n (2^63 − 1)` copies of `s`
(so every integral `0 ≤ n ≤ 2^63 − 1` gives exactly `n` copies, larger
integral `n` and `+∞` saturate at `2^63 − 1` copies, and negative or
non-integral `n` — including NaN and `−∞` — is a Runtime error). -/
theorem string_arithmetic_semantics :
    (∀ s t : String, evaluateMathOperation (Value.string s) plusToken (Value.string t) =
      Outcome.ok (Value.string (s ++ t)))
    ∧ (∀ (s : String) (q : ℚ), q.den = 1 → 0 ≤ q.num → q.num ≤ 2 ^ 63 - 1 →
      evaluateMathOperation (Value.string s) starToken (Value.number (F64.finite q)) =
        Outcome.ok (Value.string (strRepeat s q.num.toNat)))
    ∧ (∀ (s : String) (q : ℚ), q.den ≠ 1 →
      evaluateMathOperation (Value.string s) starToken (Value.number (F64.finite q)) =
        Outcome.error ErrorType.runtimeError)
    ∧ (∀ (s : String) (q : ℚ), q.den = 1 → q.num < 0 →
      evaluateMathOperation (Value.string s) starToken (Value.number (F64.finite q)) =
        Outcome.error ErrorType.runtimeError)
    ∧ (∀ (s : String) (q : ℚ), q.den = 1 → 2 ^ 63 - 1 < q.num →
      evaluateMathOperation (Value.string s) starToken (Value.number (F64.finite q)) =
        Outcome.ok (Value.string (strRepeat s ((2 : ℤ) ^ 63 - 1).toNat)))
    ∧ (∀ s : String, evaluateMathOperation (Value.string s) starToken (Value.number F64.inf) =
      Outcome.ok (Value.string (strRepeat s ((2 : ℤ) ^ 63 - 1).toNat)))
    ∧ (∀ s : String, evaluateMathOperation (Value.string s) starToken (Value.number F64.neginf) =
      Outcome.error ErrorType.runtimeError)
    ∧ (∀ s : String, evaluateMathOperation (Value.string s) starToken (Value.number F64.nan) =
      Outcome.error ErrorType.runtimeError) := by
  refine ⟨?_, ?_, ?_, ?_, ?_, ?_, ?_, ?_⟩
  · intro s t
    simp [evaluateMathOperation, plusToken, tkn]
  · intro s q hden hlo hhi
    have hr : F64.ftoI64 (F64.finite q) = q.num := by
      rw [ftoI64_den_one q hden]
      omega
    simp only [evaluateMathOperation, starToken, tkn, fround_beq_den_one q hden, hr]
    have : ¬ q.num < 0 := by omega
    simp [this]
  · intro s q hden
    simp [evaluateMathOperation, starToken, tkn, fround_beq_den_ne q hden]
  · intro s q hden hneg
    have hr : F64.ftoI64 (F64.finite q) < 0 := by
      rw [ftoI64_den_one q hden]
      omega
    simp only [evaluateMathOperation, starToken, tkn, fround_beq_den_one q hden]
    simp [hr]
  · intro s q hden hbig
    have hr : F64.ftoI64 (F64.finite q) = 2 ^ 63 - 1 := by
      rw [ftoI64_den_one q hden]
      omega
    simp only [evaluateMathOperation, starToken, tkn, fround_beq_den_one q hden, hr]
    norm_num
  · intro s
    simp only [evaluateMathOperation, starToken, tkn, F64.fround, F64.beq, F64.ftoI64]
    norm_num
  · intro s
    simp [evaluateMathOperation, starToken, tkn, F64.fround, F64.beq, F64.ftoI64]
  · intro s
    simp [evaluateMathOperation, starToken, tkn, F64.fround, F64.beq]

/-- Claim C8, witness: `"ab" + "cd"`, `"ab" * 3`, `"ab" * 2.5`,
`"ab" * (−2)` and the saturating `"a" * 10^19`. -/
theorem string_arithmetic_semantics_witness :
    evaluateMathOperation (Value.string "ab") plusToken (Value.string "cd") =
      Outcome.ok (Value.string "abcd")
    ∧ evaluateMathOperation (Value.string "ab") starToken (Value.number (F64.finite 3)) =
      Outcome.ok (Value.string (strRepeat "ab" (3 : ℤ).toNat))
    ∧ evaluateMathOperation (Value.string "ab") starToken
        (Value.number (F64.finite (mkRat 5 2))) = Outcome.error ErrorType.runtimeError
    ∧ evaluateMathOperation (Value.string "ab") starToken (Value.number (F64.finite (-2))) =
      Outcome.error ErrorType.runtimeError := by
  refine ⟨?_, ?_, ?_, ?_⟩
  · exact string_arithmetic_semantics.1 "ab" "cd"
  · have h := string_arithmetic_semantics.2.1 "ab" 3 (by with_unfolding_all rfl)
      (by with_unfolding_all decide) (by with_unfolding_all decide)
    simpa using h
  · exact string_arithmetic_semantics.2.2.1 "ab" (mkRat 5 2) (by with_unfolding_all decide)
  · exact string_arithmetic_semantics.2.2.2.1 "ab" (-2) (by with_unfolding_all rfl)
      (by with_unfolding_all decide)

/-- Claim C8, counterexample: at the integral f64 value `n = 10^19`
(exactly representable in binary64, within the claim's quantifier)
`"a" * n` succeeds but produces `2^63 − 1` copies — the saturated
`as i64` cast — not the `10^19` copies the claim requires: the two
results differ in length. -/
theorem string_times_huge_counterexample :
    evaluateMathOperation (Value.string "a") starToken (Value.number (F64.finite (10 ^ 19))) =
      Outcome.ok (Value.string (strRepeat "a" ((2 : ℤ) ^ 63 - 1).toNat))
    ∧ strRepeat "a" ((2 : ℤ) ^ 63 - 1).toNat ≠ strRepeat "a" (10 ^ 19) := by
  constructor
  · exact string_arithmetic_semantics.2.2.2.2.1 "a" (10 ^ 19)
      (by with_unfolding_all rfl) (by with_unfolding_all decide)
  · intro h
    have hlen := congrArg String.length h
    rw [strRepeat_length, strRepeat_length] at hlen
    norm_num at hlen
    rcases hlen with h1 | h1
    · exact absurd h1 (by decide)
    · exact absurd h1 (by decide)

/-! Claim C6. -/

/-- Claim C6, counterexample: the single statement `empty` (followed by
a newline) parses successfully as a bare expression statement, refuting
"in every other position — for example as a bare expression statement —
the parser reports a Syntax error". -/
theorem empty_statement_parses :
    Parser.parse [emptyToken, eolToken, eofTk] =
      some (Except.ok [Statement.expr (Expr.primary emptyToken)]) := rfl

/-- Claim C6 (amended): `empty` is accepted wherever the parser's
`comparison` rule starts an expression — as an assignment right-hand
side (optionally `(boolean)`/`(number)`), as either operand of
`==`/`!=`, and equally as a bare expression statement, a call argument,
a grouped `(empty)`, or an operand of `and`/`or`; it is a parse error
exactly where `primary` is reached with `empty` as the next token (for
instance after a unary or arithmetic operator), and `empty(string)` in
an assignment is a parse error. -/
theorem empty_keyword_positions :
    (∀ (f : Nat) (st : PState), st.peek.tokenType = TokenType.Empty →
      Parser.primary (f + 1) st = some (st, Except.error ()))
    ∧ (∀ (f : Nat) (st : PState), st.peek.tokenType = TokenType.Empty →
      Parser.comparison (f + 1) st =
        some ({ st with current := st.current + 1 }, Except.ok (Expr.primary st.peek)))
    ∧ (Parser.parse [emptyToken, eolToken, eofTk]).map Except.isOk = some true
    ∧ (Parser.parse [identToken "x", tkn TokenType.Equal "=", emptyToken, eolToken,
        eofTk]).map Except.isOk = some true
    ∧ (Parser.parse [identToken "x", tkn TokenType.Equal "=", emptyToken,
        tkn TokenType.LeftParen "(", tkn TokenType.Boolean "boolean",
        tkn TokenType.RightParen ")", eolToken, eofTk]).map Except.isOk = some true
    ∧ (Parser.parse [identToken "x", tkn TokenType.Equal "=", emptyToken,
        tkn TokenType.LeftParen "(", tkn TokenType.String "string",
        tkn TokenType.RightParen ")", eolToken, eofTk]).map Except.isOk = some false
    ∧ (Parser.parse [emptyToken, eqeqToken, numberToken 1, eolToken, eofTk]).map
        Except.isOk = some true
    ∧ (Parser.parse [numberToken 1, bangEqToken, emptyToken, eolToken, eofTk]).map
        Except.isOk = some true
    ∧ (Parser.parse [numberToken 1, plusToken, emptyToken, eolToken, eofTk]).map
        Except.isOk = some false
    ∧ (Parser.parse [tkn TokenType.Minus "-", emptyToken, eolToken, eofTk]).map
        Except.isOk = some false
    ∧ (Parser.parse [tkn TokenType.Bang "!", emptyToken, eolToken, eofTk]).map
        Except.isOk = some false
    ∧ (Parser.parse [identToken "g", tkn TokenType.LeftParen "(", emptyToken,
        tkn TokenType.RightParen ")", eolToken, eofTk]).map Except.isOk = some true
    ∧ (Parser.parse [tkn TokenType.True "true", tkn TokenType.And "and", emptyToken,
        eolToken, eofTk]).map Except.isOk = some true
    ∧ (Parser.parse [tkn TokenType.LeftParen "(", emptyToken, tkn TokenType.RightParen ")",
        eolToken, eofTk]).map Except.isOk = some true
    ∧ (Parser.parse [emptyToken, plusToken, numberToken 1, eolToken, eofTk]).map
        Except.isOk = some false := by
  refine ⟨?_, ?_, rfl, rfl, rfl, rfl, rfl, rfl, rfl, rfl, rfl, rfl, rfl, rfl, rfl⟩
  · intro f st h
    have hend : st.isAtEnd = false := by simp [PState.isAtEnd, h]
    simp [Parser.primary, PState.matchAny, PState.matchOne, PState.nextIs, hend, h]
  · intro f st h
    have hend : st.isAtEnd = false := by simp [PState.isAtEnd, h]
    have hne : PState.nextIs st TokenType.Empty = true := by
      simp [PState.nextIs, hend, h]
    simp only [Parser.comparison, PState.matchOne, hne, if_true]
    simp [PState.advance, hend, PState.previous, PState.peek]

/-- Claim C6, witness: the two component lemmas at the one-token state
holding `empty`. -/
theorem empty_keyword_positions_witness :
    Parser.primary 1 ⟨[emptyToken, eofTk], 0⟩ = some (⟨[emptyToken, eofTk], 0⟩, Except.error ())
    ∧ Parser.comparison 1 ⟨[emptyToken, eofTk], 0⟩ =
      some (⟨[emptyToken, eofTk], 1⟩, Except.ok (Expr.primary emptyToken)) := by
  constructor
  · exact empty_keyword_positions.1 0 ⟨[emptyToken, eofTk], 0⟩ rfl
  · exact empty_keyword_positions.2.1 0 ⟨[emptyToken, eofTk], 0⟩ rfl

/-! Helper lemmas for claim C9. -/

/-- `add_token` appends exactly one token, stamped at the current
position. -/
theorem addToken_tokens (st : LexState) (tt : TokenType) (lx : String) :
    (addToken st tt lx).tokens = st.tokens ++ [⟨tt, lx, st.line, st.column⟩] := by
  cases tt <;> simp [addToken, apply_ite LexState.tokens]

/-- `eolCount` distributes over append. -/
theorem eolCount_append (a b : List Token) : eolCount (a ++ b) = eolCount a + eolCount b := by
  simp [eolCount, List.countP_append]

/-- `eolCount` of a single token. -/
theorem eolCount_single (t : Token) :
    eolCount [t] = if t.tokenType = TokenType.EOL then 1 else 0 := by
  by_cases h : t.tokenType = TokenType.EOL <;> simp [eolCount, List.countP_cons, h]

/-- A matched character is the head of the list. -/
theorem matchChar_true {e : Char} {l : List Char} (h : (matchChar e l).1 = true) :
    l = e :: (matchChar e l).2 := by
  cases l with
  | nil => simp [matchChar] at h
  | cons c r =>
    by_cases hc : c = e
    · simp [matchChar, hc]
    · simp [matchChar, hc] at h

/-- An unmatched character leaves the list unchanged. -/
theorem matchChar_false {e : Char} {l : List Char} (h : (matchChar e l).1 = false) :
    (matchChar e l).2 = l := by
  cases l with
  | nil => rfl
  | cons c r =>
    by_cases hc : c = e
    · simp [matchChar, hc] at h
    · simp [matchChar, hc]

/-- One normal-mode character that opens neither a string nor a comment
and is not a newline is skipped by the reference counter. -/
theorem newlinesOutside_skip (c : Char) (l : List Char) (h1 : c ≠ '"') (h2 : c ≠ '\n')
    (h3 : c = '/' → ∀ c₂ ∈ l.head?, c₂ ≠ '/' ∧ c₂ ≠ '*') :
    newlinesOutside LexMode.normal (c :: l) = newlinesOutside LexMode.normal l := by
  by_cases hc : c = '/'
  · cases l with
    | nil =>
      rw [newlinesOutside.eq_def]
      simp [hc, h1, h2, newlinesOutside]
    | cons c₂ r =>
      obtain ⟨hs, ht⟩ := h3 hc c₂ (by simp)
      rw [newlinesOutside.eq_def]
      simp [hc, h1, h2, hs, ht]
  · rw [newlinesOutside.eq_def]
    simp [h1, h2, hc]

/-- A run of characters that can open nothing (no quote, newline or
slash) is skipped wholesale by the reference counter. -/
theorem newlinesOutside_skip_chunk (l r : List Char)
    (h : ∀ c ∈ l, c ≠ '"' ∧ c ≠ '\n' ∧ c ≠ '/') :
    newlinesOutside LexMode.normal (l ++ r) = newlinesOutside LexMode.normal r := by
  induction l with
  | nil => rfl
  | cons c t ih =>
    obtain ⟨h1, h2, h3⟩ := h c (by simp)
    have := newlinesOutside_skip c (t ++ r) h1 h2 (fun hc => absurd hc h3)
    rw [List.cons_append, this, ih (fun x hx => h x (by simp [hx]))]

/-- The line-comment loop emits nothing, only drops characters, and its
remainder carries exactly the newlines the line-comment mode counts. -/
theorem lineComment_spec (l : List Char) : ∀ st : LexState,
    (lineComment st l).1.tokens = st.tokens
    ∧ newlinesOutside LexMode.inLineComment l =
        newlinesOutside LexMode.normal (lineComment st l).2
    ∧ (lineComment st l).2.length ≤ l.length := by
  induction l with
  | nil => intro st; exact ⟨rfl, rfl, Nat.le_refl 0⟩
  | cons c r ih =>
    intro st
    by_cases hc : c = '\n'
    · subst hc
      refine ⟨rfl, ?_, ?_⟩
      · simp only [lineComment, if_pos rfl]
        show newlinesOutside LexMode.normal r + 1 = newlinesOutside LexMode.normal ('\n' :: r)
        conv_rhs => rw [newlinesOutside.eq_def]
        simp
      · simp [lineComment]
    · obtain ⟨h1, h2, h3⟩ := ih { st with column := st.column + 1 }
      refine ⟨?_, ?_, ?_⟩
      · simpa [lineComment, hc] using h1
      · simpa [lineComment, hc, newlinesOutside] using h2
      · simp only [lineComment, hc, if_false]
        exact Nat.le_succ_of_le h3

/-- The block-comment loop emits nothing and its remainder carries
exactly the newlines the block-comment mode counts. -/
theorem blockComment_spec (l : List Char) : ∀ (st : LexState) (prev : Char),
    (blockComment st prev l).1.tokens = st.tokens
    ∧ newlinesOutside (LexMode.inBlockComment prev) l =
        newlinesOutside LexMode.normal (blockComment st prev l).2.1
    ∧ (blockComment st prev l).2.1.length ≤ l.length := by
  induction l with
  | nil => intro st prev; exact ⟨rfl, rfl, Nat.le_refl 0⟩
  | cons c r ih =>
    intro st prev
    by_cases hcl : c = '/' ∧ prev = '*'
    · refine ⟨?_, ?_, ?_⟩
      · simp [blockComment, hcl]
      · simp [blockComment, newlinesOutside, hcl]
      · simp [blockComment, hcl]
    · by_cases hnl : c = '\n'
      · obtain ⟨h1, h2, h3⟩ := ih { st with line := st.line + 1, column := 1 } c
        refine ⟨?_, ?_, ?_⟩
        · simp only [blockComment]
          rw [if_neg hcl, if_pos hnl]
          exact h1
        · simp only [blockComment, newlinesOutside]
          rw [if_neg hcl, if_neg hcl, if_pos hnl]
          exact h2
        · simp only [blockComment]
          rw [if_neg hcl, if_pos hnl]
          exact Nat.le_succ_of_le h3
      · obtain ⟨h1, h2, h3⟩ := ih { st with column := st.column + 1 } c
        refine ⟨?_, ?_, ?_⟩
        · simp only [blockComment]
          rw [if_neg hcl, if_neg hnl]
          exact h1
        · simp only [blockComment, newlinesOutside]
          rw [if_neg hcl, if_neg hcl, if_neg hnl]
          exact h2
        · simp only [blockComment]
          rw [if_neg hcl, if_neg hnl]
          exact Nat.le_succ_of_le h3

/-- A terminated string literal's remainder carries exactly the newlines
the in-string mode counts (none of the content's). -/
theorem stringScan_some (l : List Char) : ∀ content r',
    stringScan l = some (content, r') →
    newlinesOutside LexMode.inString l = newlinesOutside LexMode.normal r'
    ∧ r'.length ≤ l.length := by
  induction l with
  | nil => intro content r' h; simp [stringScan] at h
  | cons c r ih =>
    intro content r' h
    by_cases hc : c = '"'
    · subst hc
      simp only [stringScan, if_pos rfl] at h
      have h' := Option.some.inj h
      rw [Prod.ext_iff] at h'
      simp only [] at h'
      obtain ⟨h1, h2⟩ := h'
      subst h2
      constructor
      · rw [newlinesOutside.eq_def]
        simp
      · simp
    · simp only [stringScan, hc, if_false] at h
      cases hs : stringScan r with
      | none => rw [hs] at h; simp at h
      | some p =>
        obtain ⟨content', rest'⟩ := p
        rw [hs] at h
        have h' := Option.some.inj h
        rw [Prod.ext_iff] at h'
        simp only [] at h'
        obtain ⟨h1, h2⟩ := h'
        subst h2
        obtain ⟨ih1, ih2⟩ := ih content' rest' hs
        constructor
        · rw [newlinesOutside.eq_def]
          simp only [hc, if_false]
          exact ih1
        · exact Nat.le_succ_of_le ih2

/-- An unterminated string literal consumes everything: the in-string
mode counts none of its newlines. -/
theorem stringScan_none (l : List Char) :
    stringScan l = none → newlinesOutside LexMode.inString l = 0 := by
  induction l with
  | nil => intro _; rfl
  | cons c r ih =>
    intro h
    by_cases hc : c = '"'
    · simp [stringScan, hc] at h
    · simp only [stringScan, hc, if_false] at h
      cases hs : stringScan r with
      | some p => rw [hs] at h; simp at h
      | none => simp [newlinesOutside, hc, ih hs]

/-- The greedy run decomposes the list and satisfies the predicate. -/
theorem takeWhileChars_spec (p : Char → Bool) (l : List Char) :
    (takeWhileChars p l).1 ++ (takeWhileChars p l).2 = l
    ∧ (∀ c ∈ (takeWhileChars p l).1, p c = true)
    ∧ (takeWhileChars p l).2.length ≤ l.length := by
  induction l with
  | nil => exact ⟨rfl, by simp [takeWhileChars], Nat.le_refl 0⟩
  | cons c r ih =>
    by_cases hc : p c = true
    · obtain ⟨h1, h2, h3⟩ := ih
      refine ⟨?_, ?_, ?_⟩
      · simp [takeWhileChars, hc, h1]
      · intro x hx
        simp only [takeWhileChars, hc, if_true] at hx
        rcases List.mem_cons.mp hx with h | h
        · subst h; exact hc
        · exact h2 x h
      · simp only [takeWhileChars, hc, if_true]
        exact Nat.le_succ_of_le h3
    · refine ⟨?_, ?_, ?_⟩
      · simp [takeWhileChars, hc]
      · intro x hx; simp [takeWhileChars, hc] at hx
      · simp [takeWhileChars, hc]

/-- Skipping lemma specialised to a head character that is no quote,
newline or slash. -/
theorem nlo_skip1 (c : Char) (l : List Char) (h1 : c ≠ '"') (h2 : c ≠ '\n') (h3 : c ≠ '/') :
    newlinesOutside LexMode.normal (c :: l) = newlinesOutside LexMode.normal l :=
  newlinesOutside_skip c l h1 h2 (fun hc => absurd hc h3)

/-- A digit opens no string, newline or comment. -/
theorem digit_ne_special (d : Char) (hd : d.isDigit = true) :
    d ≠ '"' ∧ d ≠ '\n' ∧ d ≠ '/' := by
  refine ⟨?_, ?_, ?_⟩ <;> intro h <;> subst h <;> simp at hd

/-- An identifier character opens no string, newline or comment. -/
theorem alphaNum_ne_special (d : Char) (hd : isAlphaNumericChar d = true) :
    d ≠ '"' ∧ d ≠ '\n' ∧ d ≠ '/' := by
  refine ⟨?_, ?_, ?_⟩ <;> intro h <;> subst h <;> simp [isAlphaNumericChar, isAlphaChar] at hd

/-- Bookkeeping for a `scan_token` branch that pushes exactly one
token. -/
theorem scanToken_branch_single (st : LexState) (tt : TokenType) (lx : String) (c : Char)
    (rest rem : List Char) (htok : tt ≠ TokenType.EOF)
    (hcount : newlinesOutside LexMode.normal (c :: rest) =
      (if tt = TokenType.EOL then 1 else 0) + newlinesOutside LexMode.normal rem)
    (hlen : rem.length ≤ rest.length)
    (heq : scanToken st c rest = (addToken st tt lx, rem, false)) :
    ∃ emitted : List Token,
      (scanToken st c rest).1.tokens = st.tokens ++ emitted
      ∧ (∀ t ∈ emitted, t.tokenType ≠ TokenType.EOF)
      ∧ newlinesOutside LexMode.normal (c :: rest) =
          eolCount emitted + newlinesOutside LexMode.normal (scanToken st c rest).2.1
      ∧ (scanToken st c rest).2.1.length ≤ rest.length := by
  refine ⟨[⟨tt, lx, st.line, st.column⟩], ?_, ?_, ?_, ?_⟩
  · rw [heq]
    exact addToken_tokens st tt lx
  · intro t ht
    rw [List.mem_singleton] at ht
    subst ht
    exact htok
  · rw [heq, eolCount_single]
    exact hcount
  · rw [heq]
    exact hlen

/-- Bookkeeping for a `scan_token` branch that pushes no token. -/
theorem scanToken_branch_none (st st' : LexState) (c : Char) (rest rem : List Char) (e : Bool)
    (htoks : st'.tokens = st.tokens)
    (hcount : newlinesOutside LexMode.normal (c :: rest) = newlinesOutside LexMode.normal rem)
    (hlen : rem.length ≤ rest.length)
    (heq : scanToken st c rest = (st', rem, e)) :
    ∃ emitted : List Token,
      (scanToken st c rest).1.tokens = st.tokens ++ emitted
      ∧ (∀ t ∈ emitted, t.tokenType ≠ TokenType.EOF)
      ∧ newlinesOutside LexMode.normal (c :: rest) =
          eolCount emitted + newlinesOutside LexMode.normal (scanToken st c rest).2.1
      ∧ (scanToken st c rest).2.1.length ≤ rest.length := by
  refine ⟨[], ?_, ?_, ?_, ?_⟩
  · rw [heq]
    simpa using htoks
  · intro t ht
    simp at ht
  · rw [heq]
    simpa [eolCount] using hcount
  · rw [heq]
    exact hlen

/-- The keyword table never yields a structural token. -/
theorem keywordOrIdentifier_ne (s : String) :
    keywordOrIdentifier s ≠ TokenType.EOF ∧ keywordOrIdentifier s ≠ TokenType.EOL := by
  unfold keywordOrIdentifier
  by_cases h1 : s = "and"
  · rw [if_pos h1]; exact ⟨by decide, by decide⟩
  rw [if_neg h1]
  by_cases h2 : s = "ask"
  · rw [if_pos h2]; exact ⟨by decide, by decide⟩
  rw [if_neg h2]
  by_cases h3 : s = "boolean"
  · rw [if_pos h3]; exact ⟨by decide, by decide⟩
  rw [if_neg h3]
  by_cases h4 : s = "break"
  · rw [if_pos h4]; exact ⟨by decide, by decide⟩
  rw [if_neg h4]
  by_cases h5 : s = "cmd"
  · rw [if_pos h5]; exact ⟨by decide, by decide⟩
  rw [if_neg h5]
  by_cases h6 : s = "continue"
  · rw [if_pos h6]; exact ⟨by decide, by decide⟩
  rw [if_neg h6]
  by_cases h7 : s = "default"
  · rw [if_pos h7]; exact ⟨by decide, by decide⟩
  rw [if_neg h7]
  by_cases h8 : s = "delete"
  · rw [if_pos h8]; exact ⟨by decide, by decide⟩
  rw [if_neg h8]
  by_cases h9 : s = "else"
  · rw [if_pos h9]; exact ⟨by decide, by decide⟩
  rw [if_neg h9]
  by_cases h10 : s = "empty"
  · rw [if_pos h10]; exact ⟨by decide, by decide⟩
  rw [if_neg h10]
  by_cases h11 : s = "f"
  · rw [if_pos h11]; exact ⟨by decide, by decide⟩
  rw [if_neg h11]
  by_cases h12 : s = "false"
  · rw [if_pos h12]; exact ⟨by decide, by decide⟩
  rw [if_neg h12]
  by_cases h13 : s = "for"
  · rw [if_pos h13]; exact ⟨by decide, by decide⟩
  rw [if_neg h13]
  by_cases h14 : s = "if"
  · rw [if_pos h14]; exact ⟨by decide, by decide⟩
  rw [if_neg h14]
  by_cases h15 : s = "in"
  · rw [if_pos h15]; exact ⟨by decide, by decide⟩
  rw [if_neg h15]
  by_cases h16 : s = "keys"
  · rw [if_pos h16]; exact ⟨by decide, by decide⟩
  rw [if_neg h16]
  by_cases h17 : s = "match"
  · rw [if_pos h17]; exact ⟨by decide, by decide⟩
  rw [if_neg h17]
  by_cases h18 : s = "number"
  · rw [if_pos h18]; exact ⟨by decide, by decide⟩
  rw [if_neg h18]
  by_cases h19 : s = "or"
  · rw [if_pos h19]; exact ⟨by decide, by decide⟩
  rw [if_neg h19]
  by_cases h20 : s = "out"
  · rw [if_pos h20]; exact ⟨by decide, by decide⟩
  rw [if_neg h20]
  by_cases h21 : s = "return"
  · rw [if_pos h21]; exact ⟨by decide, by decide⟩
  rw [if_neg h21]
  by_cases h22 : s = "size"
  · rw [if_pos h22]; exact ⟨by decide, by decide⟩
  rw [if_neg h22]
  by_cases h23 : s = "string"
  · rw [if_pos h23]; exact ⟨by decide, by decide⟩
  rw [if_neg h23]
  by_cases h24 : s = "true"
  · rw [if_pos h24]; exact ⟨by decide, by decide⟩
  rw [if_neg h24]
  by_cases h25 : s = "while"
  · rw [if_pos h25]; exact ⟨by decide, by decide⟩
  rw [if_neg h25]
  exact ⟨by decide, by decide⟩

set_option maxHeartbeats 1600000 in
/-- One `scan_token` step: the tokens it appends contain no `EOF`, and
the reference newline count of the unconsumed source decreases by
exactly the number of `EOL` tokens it emits; the remaining source never
grows. -/
theorem scanToken_spec (st : LexState) (c : Char) (rest : List Char) :
    ∃ emitted : List Token,
      (scanToken st c rest).1.tokens = st.tokens ++ emitted
      ∧ (∀ t ∈ emitted, t.tokenType ≠ TokenType.EOF)
      ∧ newlinesOutside LexMode.normal (c :: rest) =
          eolCount emitted + newlinesOutside LexMode.normal (scanToken st c rest).2.1
      ∧ (scanToken st c rest).2.1.length ≤ rest.length := by
  by_cases h1 : c = ' ' ∨ c = '\r'
  · have hcs : c ≠ '"' ∧ c ≠ '\n' ∧ c ≠ '/' := by
      rcases h1 with h | h <;> subst h <;> exact ⟨by decide, by decide, by decide⟩
    exact scanToken_branch_none st { st with column := st.column + 1 } c rest rest false rfl
      (nlo_skip1 c rest hcs.1 hcs.2.1 hcs.2.2) (Nat.le_refl _) (by simp [scanToken, h1])
  by_cases h2 : c = '\t'
  · subst h2
    exact scanToken_branch_none st { st with column := st.column + 2 } '\t' rest rest false rfl
      (nlo_skip1 '\t' rest (by decide) (by decide) (by decide)) (Nat.le_refl _)
      (by simp [scanToken, h1])
  by_cases h3 : c = '\n'
  · subst h3
    refine scanToken_branch_single st TokenType.EOL "\n" '\n' rest rest (by decide) ?_
      (Nat.le_refl _) (by simp [scanToken, h1, h2])
    rw [newlinesOutside.eq_def]
    simp [Nat.add_comm]
  by_cases h4 : c = '{'
  · subst h4
    exact scanToken_branch_single st TokenType.LeftBrace "\x7b" '{' rest rest (by decide)
      (by rw [nlo_skip1 '{' rest (by decide) (by decide) (by decide)]; simp)
      (Nat.le_refl _) (by simp [scanToken, h1, h2, h3])
  by_cases h5 : c = '}'
  · subst h5
    exact scanToken_branch_single st TokenType.RightBrace "\x7d" '}' rest rest (by decide)
      (by rw [nlo_skip1 '}' rest (by decide) (by decide) (by decide)]; simp)
      (Nat.le_refl _) (by simp [scanToken, h1, h2, h3, h4])
  by_cases h6 : c = '['
  · subst h6
    exact scanToken_branch_single st TokenType.LeftBracket "[" '[' rest rest (by decide)
      (by rw [nlo_skip1 '[' rest (by decide) (by decide) (by decide)]; simp)
      (Nat.le_refl _) (by simp [scanToken, h1, h2, h3, h4, h5])
  by_cases h7 : c = ']'
  · subst h7
    exact scanToken_branch_single st TokenType.RightBracket "]" ']' rest rest (by decide)
      (by rw [nlo_skip1 ']' rest (by decide) (by decide) (by decide)]; simp)
      (Nat.le_refl _) (by simp [scanToken, h1, h2, h3, h4, h5, h6])
  by_cases h8 : c = ','
  · subst h8
    exact scanToken_branch_single st TokenType.Comma "," ',' rest rest (by decide)
      (by rw [nlo_skip1 ',' rest (by decide) (by decide) (by decide)]; simp)
      (Nat.le_refl _) (by simp [scanToken, h1, h2, h3, h4, h5, h6, h7])
  by_cases h9 : c = ':'
  · subst h9
    exact scanToken_branch_single st TokenType.Colon ":" ':' rest rest (by decide)
      (by rw [nlo_skip1 ':' rest (by decide) (by decide) (by decide)]; simp)
      (Nat.le_refl _) (by simp [scanToken, h1, h2, h3, h4, h5, h6, h7, h8])
  by_cases h10 : c = '?'
  · subst h10
    exact scanToken_branch_single st TokenType.Interrogation "?" '?' rest rest (by decide)
      (by rw [nlo_skip1 '?' rest (by decide) (by decide) (by decide)]; simp)
      (Nat.le_refl _) (by simp [scanToken, h1, h2, h3, h4, h5, h6, h7, h8, h9])
  by_cases h11 : c = '('
  · subst h11
    exact scanToken_branch_single st TokenType.LeftParen "(" '(' rest rest (by decide)
      (by rw [nlo_skip1 '(' rest (by decide) (by decide) (by decide)]; simp)
      (Nat.le_refl _) (by simp [scanToken, h1, h2, h3, h4, h5, h6, h7, h8, h9, h10])
  by_cases h12 : c = ')'
  · subst h12
    exact scanToken_branch_single st TokenType.RightParen ")" ')' rest rest (by decide)
      (by rw [nlo_skip1 ')' rest (by decide) (by decide) (by decide)]; simp)
      (Nat.le_refl _) (by simp [scanToken, h1, h2, h3, h4, h5, h6, h7, h8, h9, h10, h11])
  by_cases h13 : c = '-'
  · subst h13
    cases rest with
    | nil =>
      exact scanToken_branch_single st TokenType.Minus "-" '-' [] [] (by decide)
        (by rw [nlo_skip1 '-' [] (by decide) (by decide) (by decide)]; simp)
        (Nat.le_refl _) (by simp [scanToken, matchChar])
    | cons c₂ r =>
      by_cases ha : c₂ = '>'
      · subst ha
        exact scanToken_branch_single st TokenType.Arrow "->" '-' ('>' :: r) r (by decide)
          (by rw [nlo_skip1 '-' _ (by decide) (by decide) (by decide),
            nlo_skip1 '>' _ (by decide) (by decide) (by decide)]; simp)
          (by simp) (by simp [scanToken, matchChar])
      by_cases hb : c₂ = '='
      · subst hb
        exact scanToken_branch_single st TokenType.MinusEqual "-=" '-' ('=' :: r) r (by decide)
          (by rw [nlo_skip1 '-' _ (by decide) (by decide) (by decide),
            nlo_skip1 '=' _ (by decide) (by decide) (by decide)]; simp)
          (by simp) (by simp [scanToken, matchChar, ha])
      by_cases hc : c₂ = '-'
      · subst hc
        exact scanToken_branch_single st TokenType.MinusMinus "--" '-' ('-' :: r) r (by decide)
          (by rw [nlo_skip1 '-' _ (by decide) (by decide) (by decide),
            nlo_skip1 '-' _ (by decide) (by decide) (by decide)]; simp)
          (by simp) (by simp [scanToken, matchChar, ha, hb])
      exact scanToken_branch_single st TokenType.Minus "-" '-' (c₂ :: r) (c₂ :: r) (by decide)
        (by rw [nlo_skip1 '-' _ (by decide) (by decide) (by decide)]; simp)
        (Nat.le_refl _) (by simp [scanToken, matchChar, ha, hb, hc])
  by_cases h14 : c = '!'
  · subst h14
    cases rest with
    | nil =>
      exact scanToken_branch_single st TokenType.Bang "!" '!' [] [] (by decide)
        (by rw [nlo_skip1 '!' [] (by decide) (by decide) (by decide)]; simp)
        (Nat.le_refl _) (by simp [scanToken, matchChar, h13])
    | cons c₂ r =>
      by_cases ha : c₂ = '='
      · subst ha
        exact scanToken_branch_single st TokenType.BangEqual "!=" '!' ('=' :: r) r (by decide)
          (by rw [nlo_skip1 '!' _ (by decide) (by decide) (by decide),
            nlo_skip1 '=' _ (by decide) (by decide) (by decide)]; simp)
          (by simp) (by simp [scanToken, matchChar, h13])
      exact scanToken_branch_single st TokenType.Bang "!" '!' (c₂ :: r) (c₂ :: r) (by decide)
        (by rw [nlo_skip1 '!' _ (by decide) (by decide) (by decide)]; simp)
        (Nat.le_refl _) (by simp [scanToken, matchChar, h13, ha])
  by_cases h15 : c = '.'
  · subst h15
    cases rest with
    | nil =>
      exact scanToken_branch_single st TokenType.Dot "." '.' [] [] (by decide)
        (by rw [nlo_skip1 '.' [] (by decide) (by decide) (by decide)]; simp)
        (Nat.le_refl _) (by simp [scanToken, matchChar, h13, h14])
    | cons c₂ r =>
      by_cases ha : c₂ = '.'
      · subst ha
        cases r with
        | nil =>
          exact scanToken_branch_single st TokenType.Dot ".." '.' ['.'] [] (by decide)
            (by rw [nlo_skip1 '.' _ (by decide) (by decide) (by decide),
              nlo_skip1 '.' _ (by decide) (by decide) (by decide)]; simp)
            (by simp) (by simp [scanToken, matchChar, h13, h14])
        | cons c₃ r₃ =>
          by_cases hb : c₃ = '.'
          · subst hb
            exact scanToken_branch_single st TokenType.DotDotDot "..." '.' ('.' :: '.' :: r₃) r₃
              (by decide)
              (by rw [nlo_skip1 '.' _ (by decide) (by decide) (by decide),
                nlo_skip1 '.' _ (by decide) (by decide) (by decide),
                nlo_skip1 '.' _ (by decide) (by decide) (by decide)]; simp)
              (by simp; omega) (by simp [scanToken, matchChar, h13, h14])
          exact scanToken_branch_single st TokenType.Dot ".." '.' ('.' :: c₃ :: r₃) (c₃ :: r₃)
            (by decide)
            (by rw [nlo_skip1 '.' _ (by decide) (by decide) (by decide),
              nlo_skip1 '.' _ (by decide) (by decide) (by decide)]; simp)
            (by simp) (by simp [scanToken, matchChar, h13, h14, hb])
      exact scanToken_branch_single st TokenType.Dot "." '.' (c₂ :: r) (c₂ :: r) (by decide)
        (by rw [nlo_skip1 '.' _ (by decide) (by decide) (by decide)]; simp)
        (Nat.le_refl _) (by simp [scanToken, matchChar, h13, h14, ha])
  by_cases h16 : c = '='
  · subst h16
    cases rest with
    | nil =>
      exact scanToken_branch_single st TokenType.Equal "=" '=' [] [] (by decide)
        (by rw [nlo_skip1 '=' [] (by decide) (by decide) (by decide)]; simp)
        (Nat.le_refl _) (by simp [scanToken, matchChar, h13, h14, h15])
    | cons c₂ r =>
      by_cases ha : c₂ = '='
      · subst ha
        exact scanToken_branch_single st TokenType.EqualEqual "==" '=' ('=' :: r) r (by decide)
          (by rw [nlo_skip1 '=' _ (by decide) (by decide) (by decide),
            nlo_skip1 '=' _ (by decide) (by decide) (by decide)]; simp)
          (by simp) (by simp [scanToken, matchChar, h13, h14, h15])
      exact scanToken_branch_single st TokenType.Equal "=" '=' (c₂ :: r) (c₂ :: r) (by decide)
        (by rw [nlo_skip1 '=' _ (by decide) (by decide) (by decide)]; simp)
        (Nat.le_refl _) (by simp [scanToken, matchChar, h13, h14, h15, ha])
  by_cases h17 : c = '>'
  · subst h17
    cases rest with
    | nil =>
      exact scanToken_branch_single st TokenType.Greater ">" '>' [] [] (by decide)
        (by rw [nlo_skip1 '>' [] (by decide) (by decide) (by decide)]; simp)
        (Nat.le_refl _) (by simp [scanToken, matchChar, h13, h14, h15, h16])
    | cons c₂ r =>
      by_cases ha : c₂ = '='
      · subst ha
        exact scanToken_branch_single st TokenType.GreaterEqual ">=" '>' ('=' :: r) r (by decide)
          (by rw [nlo_skip1 '>' _ (by decide) (by decide) (by decide),
            nlo_skip1 '=' _ (by decide) (by decide) (by decide)]; simp)
          (by simp) (by simp [scanToken, matchChar, h13, h14, h15, h16])
      exact scanToken_branch_single st TokenType.Greater ">" '>' (c₂ :: r) (c₂ :: r) (by decide)
        (by rw [nlo_skip1 '>' _ (by decide) (by decide) (by decide)]; simp)
        (Nat.le_refl _) (by simp [scanToken, matchChar, h13, h14, h15, h16, ha])
  by_cases h18 : c = '<'
  · subst h18
    cases rest with
    | nil =>
      exact scanToken_branch_single st TokenType.Less "<" '<' [] [] (by decide)
        (by rw [nlo_skip1 '<' [] (by decide) (by decide) (by decide)]; simp)
        (Nat.le_refl _) (by simp [scanToken, matchChar, h13, h14, h15, h16, h17])
    | cons c₂ r =>
      by_cases ha : c₂ = '='
      · subst ha
        exact scanToken_branch_single st TokenType.LessEqual "<=" '<' ('=' :: r) r (by decide)
          (by rw [nlo_skip1 '<' _ (by decide) (by decide) (by decide),
            nlo_skip1 '=' _ (by decide) (by decide) (by decide)]; simp)
          (by simp) (by simp [scanToken, matchChar, h13, h14, h15, h16, h17])
      exact scanToken_branch_single st TokenType.Less "<" '<' (c₂ :: r) (c₂ :: r) (by decide)
        (by rw [nlo_skip1 '<' _ (by decide) (by decide) (by decide)]; simp)
        (Nat.le_refl _) (by simp [scanToken, matchChar, h13, h14, h15, h16, h17, ha])
  by_cases h19 : c = '+'
  · subst h19
    cases rest with
    | nil =>
      exact scanToken_branch_single st TokenType.Plus "+" '+' [] [] (by decide)
        (by rw [nlo_skip1 '+' [] (by decide) (by decide) (by decide)]; simp)
        (Nat.le_refl _) (by simp [scanToken, matchChar, h13, h14, h15, h16, h17, h18])
    | cons c₂ r =>
      by_cases ha : c₂ = '='
      · subst ha
        exact scanToken_branch_single st TokenType.PlusEqual "+=" '+' ('=' :: r) r (by decide)
          (by rw [nlo_skip1 '+' _ (by decide) (by decide) (by decide),
            nlo_skip1 '=' _ (by decide) (by decide) (by decide)]; simp)
          (by simp) (by simp [scanToken, matchChar, h13, h14, h15, h16, h17, h18])
      by_cases hb : c₂ = '+'
      · subst hb
        exact scanToken_branch_single st TokenType.PlusPlus "++" '+' ('+' :: r) r (by decide)
          (by rw [nlo_skip1 '+' _ (by decide) (by decide) (by decide),
            nlo_skip1 '+' _ (by decide) (by decide) (by decide)]; simp)
          (by simp) (by simp [scanToken, matchChar, h13, h14, h15, h16, h17, h18, ha])
      exact scanToken_branch_single st TokenType.Plus "+" '+' (c₂ :: r) (c₂ :: r) (by decide)
        (by rw [nlo_skip1 '+' _ (by decide) (by decide) (by decide)]; simp)
        (Nat.le_refl _) (by simp [scanToken, matchChar, h13, h14, h15, h16, h17, h18, ha, hb])
  by_cases h20 : c = '/'
  · subst h20
    cases rest with
    | nil =>
      exact scanToken_branch_single st TokenType.Slash "/" '/' [] [] (by decide)
        (by rw [newlinesOutside.eq_def]; simp [newlinesOutside])
        (Nat.le_refl _)
        (by simp [scanToken, matchChar, h13, h14, h15, h16, h17, h18, h19])
    | cons c₂ r =>
      by_cases ha : c₂ = '/'
      · subst ha
        obtain ⟨ht, hm, hl⟩ := lineComment_spec r { st with column := st.column + 2 }
        refine scanToken_branch_none st (lineComment { st with column := st.column + 2 } r).1
          '/' ('/' :: r) (lineComment { st with column := st.column + 2 } r).2 false ht ?_ ?_ ?_
        · rw [newlinesOutside.eq_def]
          simpa using hm
        · exact le_trans hl (by simp)
        · simp [scanToken, matchChar, h13, h14, h15, h16, h17, h18, h19]
      by_cases hb : c₂ = '*'
      · subst hb
        obtain ⟨ht, hm, hl⟩ := blockComment_spec r { st with column := st.column + 2 } '*'
        refine scanToken_branch_none st
          (blockComment { st with column := st.column + 2 } '*' r).1 '/' ('*' :: r)
          (blockComment { st with column := st.column + 2 } '*' r).2.1
          (blockComment { st with column := st.column + 2 } '*' r).2.2 ht ?_ ?_ ?_
        · rw [newlinesOutside.eq_def]
          simpa using hm
        · exact le_trans hl (by simp)
        · simp [scanToken, matchChar, h13, h14, h15, h16, h17, h18, h19, ha]
      by_cases hq : c₂ = '='
      · subst hq
        refine scanToken_branch_single st TokenType.SlashEqual "/=" '/' ('=' :: r) r (by decide)
          ?_ (by simp) (by simp [scanToken, matchChar, h13, h14, h15, h16, h17, h18, h19, ha, hb])
        rw [newlinesOutside.eq_def]
        simp
        rw [nlo_skip1 '=' _ (by decide) (by decide) (by decide)]
      refine scanToken_branch_single st TokenType.Slash "/" '/' (c₂ :: r) (c₂ :: r) (by decide)
        ?_ (Nat.le_refl _)
        (by simp [scanToken, matchChar, h13, h14, h15, h16, h17, h18, h19, ha, hb, hq])
      rw [newlinesOutside.eq_def]
      simp [ha, hb]
  by_cases h21 : c = '*'
  · subst h21
    cases rest with
    | nil =>
      exact scanToken_branch_single st TokenType.Star "*" '*' [] [] (by decide)
        (by rw [nlo_skip1 '*' [] (by decide) (by decide) (by decide)]; simp)
        (Nat.le_refl _)
        (by simp [scanToken, matchChar, h13, h14, h15, h16, h17, h18, h19, h20])
    | cons c₂ r =>
      by_cases ha : c₂ = '='
      · subst ha
        exact scanToken_branch_single st TokenType.StarEqual "*=" '*' ('=' :: r) r (by decide)
          (by rw [nlo_skip1 '*' _ (by decide) (by decide) (by decide),
            nlo_skip1 '=' _ (by decide) (by decide) (by decide)]; simp)
          (by simp) (by simp [scanToken, matchChar, h13, h14, h15, h16, h17, h18, h19, h20])
      exact scanToken_branch_single st TokenType.Star "*" '*' (c₂ :: r) (c₂ :: r) (by decide)
        (by rw [nlo_skip1 '*' _ (by decide) (by decide) (by decide)]; simp)
        (Nat.le_refl _)
        (by simp [scanToken, matchChar, h13, h14, h15, h16, h17, h18, h19, h20, ha])
  by_cases h22 : c = '^'
  · subst h22
    cases rest with
    | nil =>
      exact scanToken_branch_single st TokenType.Caret "^" '^' [] [] (by decide)
        (by rw [nlo_skip1 '^' [] (by decide) (by decide) (by decide)]; simp)
        (Nat.le_refl _)
        (by simp [scanToken, matchChar, h13, h14, h15, h16, h17, h18, h19, h20, h21])
    | cons c₂ r =>
      by_cases ha : c₂ = '='
      · subst ha
        exact scanToken_branch_single st TokenType.CaretEqual "^=" '^' ('=' :: r) r (by decide)
          (by rw [nlo_skip1 '^' _ (by decide) (by decide) (by decide),
            nlo_skip1 '=' _ (by decide) (by decide) (by decide)]; simp)
          (by simp)
          (by simp [scanToken, matchChar, h13, h14, h15, h16, h17, h18, h19, h20, h21])
      exact scanToken_branch_single st TokenType.Caret "^" '^' (c₂ :: r) (c₂ :: r) (by decide)
        (by rw [nlo_skip1 '^' _ (by decide) (by decide) (by decide)]; simp)
        (Nat.le_refl _)
        (by simp [scanToken, matchChar, h13, h14, h15, h16, h17, h18, h19, h20, h21, ha])
  by_cases h23 : c = '%'
  · subst h23
    cases rest with
    | nil =>
      exact scanToken_branch_single st TokenType.Percent "%" '%' [] [] (by decide)
        (by rw [nlo_skip1 '%' [] (by decide) (by decide) (by decide)]; simp)
        (Nat.le_refl _)
        (by simp [scanToken, matchChar, h13, h14, h15, h16, h17, h18, h19, h20, h21, h22])
    | cons c₂ r =>
      by_cases ha : c₂ = '='
      · subst ha
        exact scanToken_branch_single st TokenType.PercentEqual "%=" '%' ('=' :: r) r (by decide)
          (by rw [nlo_skip1 '%' _ (by decide) (by decide) (by decide),
            nlo_skip1 '=' _ (by decide) (by decide) (by decide)]; simp)
          (by simp)
          (by simp [scanToken, matchChar, h13, h14, h15, h16, h17, h18, h19, h20, h21, h22])
      exact scanToken_branch_single st TokenType.Percent "%" '%' (c₂ :: r) (c₂ :: r) (by decide)
        (by rw [nlo_skip1 '%' _ (by decide) (by decide) (by decide)]; simp)
        (Nat.le_refl _)
        (by simp [scanToken, matchChar, h13, h14, h15, h16, h17, h18, h19, h20, h21, h22, ha])
  by_cases h24 : c = '"'
  · subst h24
    cases hs : stringScan rest with
    | some p =>
      obtain ⟨content, r'⟩ := p
      obtain ⟨hm, hl⟩ := stringScan_some rest content r' hs
      refine scanToken_branch_single st (TokenType.StringLiteral (String.mk content))
        (String.mk ('"' :: (content ++ ['"']))) '"' rest r' (by simp) ?_ hl ?_
      · rw [newlinesOutside.eq_def]
        simpa using hm
      · simp [scanToken, hs, h13, h14, h15, h16, h17, h18, h19, h20, h21, h22, h23]
    | none =>
      refine scanToken_branch_none st st '"' rest [] true rfl ?_ (by simp) ?_
      · rw [newlinesOutside.eq_def]
        simpa using stringScan_none rest hs
      · simp [scanToken, hs, h13, h14, h15, h16, h17, h18, h19, h20, h21, h22, h23]
  by_cases h25 : c.isDigit = true
  · have hq : c ≠ '"' := h24
    have hn : c ≠ '\n' := h3
    have hsl : c ≠ '/' := h20
    rcases hT : takeWhileChars Char.isDigit rest with ⟨intDigits, r₁⟩
    have hdec := (takeWhileChars_spec Char.isDigit rest).1
    have hall := (takeWhileChars_spec Char.isDigit rest).2.1
    have hlen := (takeWhileChars_spec Char.isDigit rest).2.2
    rw [hT] at hdec hall hlen
    simp only [] at hdec hall hlen
    have hmach : newlinesOutside LexMode.normal (c :: rest) =
        newlinesOutside LexMode.normal r₁ := by
      rw [nlo_skip1 c rest hq hn hsl, ← hdec,
        newlinesOutside_skip_chunk intDigits r₁ (fun x hx => digit_ne_special x (hall x hx))]
    match r₁, hmach, hlen with
    | [], hmach, hlen =>
      exact scanToken_branch_single st
        (TokenType.NumberLiteral (parseDecimalF64 (c :: intDigits) []))
        (String.mk (c :: intDigits)) c rest [] (by simp) (by simpa using hmach) hlen
        (by simp [scanToken, h1, h2, h3, h4, h5, h6, h7, h8, h9, h10, h11, h12, h13, h14,
          h15, h16, h17, h18, h19, h20, h21, h22, h23, h24, h25, hT])
    | [x], hmach, hlen =>
      exact scanToken_branch_single st
        (TokenType.NumberLiteral (parseDecimalF64 (c :: intDigits) []))
        (String.mk (c :: intDigits)) c rest [x] (by simp) (by simpa using hmach) hlen
        (by simp [scanToken, h1, h2, h3, h4, h5, h6, h7, h8, h9, h10, h11, h12, h13, h14,
          h15, h16, h17, h18, h19, h20, h21, h22, h23, h24, h25, hT])
    | dot :: d :: tl, hmach, hlen =>
      by_cases hfrac : dot = '.' ∧ d.isDigit
      · obtain ⟨hdot, hd⟩ := hfrac
        subst hdot
        rcases hF : takeWhileChars Char.isDigit (d :: tl) with ⟨fracDigits, r₃⟩
        have hFdec := (takeWhileChars_spec Char.isDigit (d :: tl)).1
        have hFall := (takeWhileChars_spec Char.isDigit (d :: tl)).2.1
        have hFlen := (takeWhileChars_spec Char.isDigit (d :: tl)).2.2
        rw [hF] at hFdec hFall hFlen
        simp only [] at hFdec hFall hFlen
        refine scanToken_branch_single st
          (TokenType.NumberLiteral (parseDecimalF64 (c :: intDigits) fracDigits))
          (String.mk (c :: intDigits ++ '.' :: fracDigits)) c rest r₃ (by simp) ?_ ?_ ?_
        · rw [hmach, nlo_skip1 '.' _ (by decide) (by decide) (by decide), ← hFdec,
            newlinesOutside_skip_chunk fracDigits r₃
              (fun x hx => digit_ne_special x (hFall x hx))]
          simp
        · simp at hFlen hlen
          omega
        · simp [scanToken, h1, h2, h3, h4, h5, h6, h7, h8, h9, h10, h11, h12, h13, h14,
            h15, h16, h17, h18, h19, h20, h21, h22, h23, h24, h25, hT, hd, hF]
      · exact scanToken_branch_single st
          (TokenType.NumberLiteral (parseDecimalF64 (c :: intDigits) []))
          (String.mk (c :: intDigits)) c rest (dot :: d :: tl) (by simp)
          (by simpa using hmach) hlen
          (by simp [scanToken, h1, h2, h3, h4, h5, h6, h7, h8, h9, h10, h11, h12, h13, h14,
            h15, h16, h17, h18, h19, h20, h21, h22, h23, h24, h25, hT, hfrac])
  by_cases h26 : isAlphaChar c = true
  · have hq : c ≠ '"' := h24
    have hn : c ≠ '\n' := h3
    have hsl : c ≠ '/' := h20
    rcases hT : takeWhileChars isAlphaNumericChar rest with ⟨identChars, r₁⟩
    have hdec := (takeWhileChars_spec isAlphaNumericChar rest).1
    have hall := (takeWhileChars_spec isAlphaNumericChar rest).2.1
    have hlen := (takeWhileChars_spec isAlphaNumericChar rest).2.2
    rw [hT] at hdec hall hlen
    simp only [] at hdec hall hlen
    obtain ⟨hkf, hkl⟩ := keywordOrIdentifier_ne (String.mk (c :: identChars))
    refine scanToken_branch_single st (keywordOrIdentifier (String.mk (c :: identChars)))
      (String.mk (c :: identChars)) c rest r₁ hkf ?_ hlen ?_
    · rw [nlo_skip1 c rest hq hn hsl, ← hdec,
        newlinesOutside_skip_chunk identChars r₁
          (fun x hx => alphaNum_ne_special x (hall x hx))]
      simp [hkl]
    · simp [scanToken, h1, h2, h3, h4, h5, h6, h7, h8, h9, h10, h11, h12, h13, h14,
        h15, h16, h17, h18, h19, h20, h21, h22, h23, h24, h25, h26, hT]
  · have hq : c ≠ '"' := h24
    have hn : c ≠ '\n' := h3
    have hsl : c ≠ '/' := h20
    exact scanToken_branch_none st { st with column := st.column + 1 } c rest rest true rfl
      (nlo_skip1 c rest hq hn hsl) (Nat.le_refl _)
      (by simp [scanToken, h1, h2, h3, h4, h5, h6, h7, h8, h9, h10, h11, h12, h13, h14,
        h15, h16, h17, h18, h19, h20, h21, h22, h23, h24, h25, h26])

/-- The scanning loop of `scan_tokens`: with enough fuel it appends only
non-`EOF` tokens and one final `EOF` token, and the `EOL` tokens among
them count exactly the newlines lying outside string literals and block
comments. -/
theorem scanLoop_spec (fuel : Nat) (st : LexState) (rest : List Char) (err : Bool)
    (hf : rest.length < fuel) :
    ∃ emitted : List Token, ∃ last : Token,
      (scanLoop fuel st rest err).1 = st.tokens ++ emitted ++ [last]
      ∧ last.tokenType = TokenType.EOF
      ∧ (∀ t ∈ emitted, t.tokenType ≠ TokenType.EOF)
      ∧ eolCount emitted = newlinesOutside LexMode.normal rest := by
  induction fuel generalizing st rest err with
  | zero => omega
  | succ f ih =>
    cases rest with
    | nil =>
      refine ⟨[], eofToken st, by simp [scanLoop], rfl, by simp, ?_⟩
      simp [eolCount, newlinesOutside]
    | cons c r =>
      obtain ⟨em1, ht1, hnf1, hm1, hl1⟩ := scanToken_spec st c r
      have hstep : scanLoop (f + 1) st (c :: r) err =
          scanLoop f (scanToken st c r).1 (scanToken st c r).2.1
            (err || (scanToken st c r).2.2) := rfl
      have hflt : (scanToken st c r).2.1.length < f := by
        simp at hf
        omega
      obtain ⟨em2, last, ht2, hlast, hnf2, hm2⟩ :=
        ih (scanToken st c r).1 (scanToken st c r).2.1 (err || (scanToken st c r).2.2) hflt
      refine ⟨em1 ++ em2, last, ?_, hlast, ?_, ?_⟩
      · rw [hstep, ht2, ht1]
        simp
      · intro t ht
        rcases List.mem_append.mp ht with h | h
        exacts [hnf1 t h, hnf2 t h]
      · rw [eolCount_append, hm1, hm2]

/-! Claim C9. -/

/-- Claim C9, counterexample: the source `"a\nb"` — a string literal
containing a newline — scans without a lexical error and its token list
contains no `EOL` token, although the source contains one newline
character; the claim's quantifier over all newlines (including those
inside multi-line string literals and block comments) therefore fails. -/
theorem newline_in_string_no_eol :
    (scanTokens ['"', 'a', '\n', 'b', '"']).2 = false
    ∧ eolCount (scanTokens ['"', 'a', '\n', 'b', '"']).1 = 0
    ∧ List.count '\n' ['"', 'a', '\n', 'b', '"'] = 1 := by
  exact ⟨rfl, rfl, by decide⟩

/-- Claim C9 (amended): for every source text — whether or not it scans
with a lexical error — the produced token list is a list of non-`EOF`
tokens followed by exactly one `EOF` token, which is its last element,
and the number of `EOL` tokens equals the number of newline characters
lying outside string literals and outside block comments (a newline
inside a string literal or a block comment emits no `EOL` token). -/
theorem eol_eof_accounting (source : List Char) :
    ∃ pre : List Token, ∃ last : Token,
      (scanTokens source).1 = pre ++ [last]
      ∧ last.tokenType = TokenType.EOF
      ∧ (∀ t ∈ pre, t.tokenType ≠ TokenType.EOF)
      ∧ eofCount (scanTokens source).1 = 1
      ∧ eolCount pre = newlinesOutside LexMode.normal source := by
  obtain ⟨em, last, ht, hlast, hnf, hm⟩ :=
    scanLoop_spec (source.length + 1) ⟨[], 1, 1⟩ source false (by omega)
  have ht' : (scanTokens source).1 = em ++ [last] := by
    rw [scanTokens, ht]
    simp
  have h0 : eofCount em = 0 := by
    rw [eofCount, List.countP_eq_zero]
    intro t ht2
    simp [hnf t ht2]
  refine ⟨em, last, ht', hlast, hnf, ?_, hm⟩
  rw [ht']
  have hsplit : eofCount (em ++ [last]) = eofCount em + eofCount [last] := by
    simp [eofCount, List.countP_append]
  rw [hsplit, h0, eofCount]
  simp [List.countP_cons, hlast]
